import Mathlib

/-!
Verification development for the ComStock postprocessing core
(`postprocessing/comstockpostproc/comstock.py`).

The embedding models the tabular data that `load_data`,
`add_weighted_energy_savings_columns`, `add_national_scaling_weights`,
`add_weighted_area_and_energy_columns`, `add_addressable_segments_columns`
and `add_missing_energy_columns` manipulate.  A cell value is modelled by
`Val`, which carries the IEEE-754 special values (`nan`, `inf`, `neginf`)
and the polars `null` explicitly, with rationals standing for the finite
floats; the identities proved below only involve operations that are exact
in IEEE-754 (subtraction of equal values, division by zero, propagation of
null/NaN), so no rounding model is needed.  Tables are lists of rows; a row
keeps the four columns the code addresses through named constants
(`building_id`, `completed_status`, the upgrade id column and
`apply_upgrade.upgrade_name`) as record fields and every other column in an
association list keyed by column name.
-/

/-- A cell value: polars `null`, a finite float (as an exact rational),
the IEEE specials, or a non-numeric (string / boolean) payload. -/
inductive Val where
  | null
  | nan
  | inf
  | neginf
  | num (q : ℚ)
  | str (s : String)
  | bool (b : Bool)
deriving DecidableEq

/-- Polars subtraction on Float64 columns: `null` propagates (any arithmetic
with null is null), then NaN propagates, then IEEE rules on the specials.
The final catch-all covers non-numeric operands, on which the pipeline never
performs arithmetic. -/
def subV : Val → Val → Val
  | .null, _ => .null
  | _, .null => .null
  | .nan, _ => .nan
  | _, .nan => .nan
  | .num a, .num b => .num (a - b)
  | .num _, .inf => .neginf
  | .num _, .neginf => .inf
  | .inf, .num _ => .inf
  | .neginf, .num _ => .neginf
  | .inf, .neginf => .inf
  | .neginf, .inf => .neginf
  | .inf, .inf => .nan
  | .neginf, .neginf => .nan
  | _, _ => .null

/-- Polars division on Float64 columns: null propagates, NaN propagates,
`0/0 = NaN`, `x/0 = ±inf` for `x ≠ 0`, `x/±inf = 0`, `±inf/±inf = NaN`. -/
def divV : Val → Val → Val
  | .null, _ => .null
  | _, .null => .null
  | .nan, _ => .nan
  | _, .nan => .nan
  | .num a, .num b =>
      if b = 0 then (if a = 0 then .nan else if a > 0 then .inf else .neginf)
      else .num (a / b)
  | .num _, .inf => .num 0
  | .num _, .neginf => .num 0
  | .inf, .num b => if b < 0 then .neginf else .inf
  | .neginf, .num b => if b < 0 then .inf else .neginf
  | .inf, .inf => .nan
  | .inf, .neginf => .nan
  | .neginf, .inf => .nan
  | .neginf, .neginf => .nan
  | _, _ => .null

/-- Polars multiplication on Float64 columns (same propagation rules). -/
def mulV : Val → Val → Val
  | .null, _ => .null
  | _, .null => .null
  | .nan, _ => .nan
  | _, .nan => .nan
  | .num a, .num b => .num (a * b)
  | .num a, .inf => if a = 0 then .nan else if a > 0 then .inf else .neginf
  | .num a, .neginf => if a = 0 then .nan else if a > 0 then .neginf else .inf
  | .inf, .num b => if b = 0 then .nan else if b > 0 then .inf else .neginf
  | .neginf, .num b => if b = 0 then .nan else if b > 0 then .neginf else .inf
  | .inf, .inf => .inf
  | .inf, .neginf => .neginf
  | .neginf, .inf => .neginf
  | .neginf, .neginf => .inf
  | _, _ => .null

/-- `DataFrame.fill_null(0.0)` applied to one cell. -/
def fillNull0 (v : Val) : Val := if v = .null then .num 0 else v

/-- `DataFrame.fill_nan(0.0)` applied to one cell. -/
def fillNan0 (v : Val) : Val := if v = .nan then .num 0 else v

/-- Association-list lookup by column name (first match wins, the shadowing
behaviour a `with_columns` overwrite is modelled with). -/
def alookup {β : Type} : List (String × β) → String → Option β
  | [], _ => none
  | p :: rest, c => if p.1 = c then some p.2 else alookup rest c

/-- One row of a results table.  `building_id`, `completed_status`, the
upgrade id and `apply_upgrade.upgrade_name` are the columns the code reads
through dedicated constants; every other column lives in `vals`. -/
structure Row where
  building_id : Nat
  completed_status : Option String
  upgrade : Nat
  upgrade_name : String
  vals : List (String × Val)
deriving DecidableEq

/-- A results table: declared column set (beyond the four field columns)
plus rows. -/
structure Table where
  schema : List String
  rows : List Row
deriving DecidableEq

/-- Reading a column of a row; a column the row does not carry reads as
null, which is exactly what the schema-aligning (`diagonal`) concatenation
in `load_data` produces for columns missing from a frame. -/
def getVal (r : Row) (c : String) : Val := (alookup r.vals c).getD .null

/-- `with_columns` overwrite of a single column of a row. -/
def setVal (r : Row) (c : String) (v : Val) : Row :=
  { r with vals := (c, v) :: r.vals }

theorem alookup_cons {β : Type} (k : String) (v : β) (rest : List (String × β))
    (c : String) :
    alookup ((k, v) :: rest) c = if k = c then some v else alookup rest c := rfl

theorem alookup_eq_none {β : Type} (l : List (String × β)) (c : String)
    (h : c ∉ l.map Prod.fst) : alookup l c = none := by
  induction l with
  | nil => rfl
  | cons p rest ih =>
      simp only [List.map_cons, List.mem_cons] at h
      push_neg at h
      simp only [alookup, ih h.2, if_neg (Ne.symm h.1)]

theorem alookup_append_of_not_mem_left {β : Type} (xs ys : List (String × β))
    (c : String) (h : c ∉ xs.map Prod.fst) :
    alookup (xs ++ ys) c = alookup ys c := by
  induction xs with
  | nil => rfl
  | cons p rest ih =>
      simp only [List.map_cons, List.mem_cons] at h
      push_neg at h
      show (if p.1 = c then some p.2 else alookup (rest ++ ys) c) = alookup ys c
      rw [if_neg (Ne.symm h.1), ih h.2]

theorem alookup_append_of_mem_left {β : Type} (xs ys : List (String × β))
    (c : String) (h : c ∈ xs.map Prod.fst) :
    alookup (xs ++ ys) c = alookup xs c := by
  induction xs with
  | nil => simp at h
  | cons p rest ih =>
      by_cases hp : p.1 = c
      · simp [alookup, hp]
      · simp only [List.map_cons, List.mem_cons] at h
        rcases h with h | h
        · exact absurd h.symm hp
        · show (if p.1 = c then some p.2 else alookup (rest ++ ys) c)
              = alookup (p :: rest) c
          rw [if_neg hp, ih h, alookup_cons, if_neg hp]

theorem alookup_map_self {β : Type} (cols : List String) (f : String → β)
    (c : String) (h : c ∈ cols) :
    alookup (cols.map (fun c' => (c', f c'))) c = some (f c) := by
  induction cols with
  | nil => simp at h
  | cons k rest ih =>
      rcases List.mem_cons.mp h with h | h
      · simp [alookup, h.symm]
      · by_cases hk : k = c
        · simp [alookup, hk]
        · simp only [List.map_cons, alookup, if_neg hk]
          exact ih h

theorem getVal_setVal_same (r : Row) (c : String) (v : Val) :
    getVal (setVal r c v) c = v := by
  simp [getVal, setVal, alookup]

theorem getVal_setVal_other (r : Row) (c c' : String) (v : Val) (h : c ≠ c') :
    getVal (setVal r c v) c' = getVal r c' := by
  simp [getVal, setVal, alookup, h]

/-! ## The `load_data` model (comstock.py lines 252-450)

The file-system plumbing (parquet/csv reading, S3, memory reduction and
column downselection, which do not change row contents of the columns the
claims concern) is out of scope; `load_data` is modelled as a function of
the already-parsed per-upgrade tables, the buildstock id list, and the
configuration arguments. -/

/-- The primary (total site) energy output column (comstock.py line 344). -/
def site_engy_col : String := "simulation_output_report.total_site_energy_mbtu"

/-- `self.BASE_NAME`.  The constant lives in `NamingMixin`
(not under `src/`); modelled from the spec's glossary ("Baseline: the
unmodified (upgrade_id = 0) simulation scenario").  No claim depends on the
exact string, only on it being the marker of the baseline partition. -/
def BASE_NAME : String := "Baseline"

/-- The exclusion list of `load_data` (comstock.py lines 421-431), restricted
to the columns modelled inside `Row.vals`.  The source list also contains
`self.COMP_STATUS`, `self.UPGRADE_ID` and `'apply_upgrade.upgrade_name'`,
which this embedding models as the record fields `completed_status`,
`upgrade` and `upgrade_name` of `Row` — fields are never touched by the
fallback substitution, so they are "left alone" by construction.  The
source list's final element is the *list* `self.upgrade_ids_to_skip`
(an apparent slip); since a column name (a string) never equals a list,
that element excludes no column and is dropped here. -/
def cols_to_leave_alone_vals : List String :=
  ["job_id", "started_at", "completed_at",
   "apply_upgrade.applicable", "apply_upgrade.reference_scenario"]

/-- Failed buildings of one upgrade table (comstock.py lines 338-355):
rows with `completed_status == 'Fail'`, "fake successes" (status
`'Success'` with a null total site energy), and rows with a null status;
each of the three id lists is deduplicated (`unique()`) and they are
concatenated (`extend`). -/
def up_fail_ids_of (t : Table) : List Nat :=
  ((t.rows.filter (fun r => decide (r.completed_status = some "Fail"))).map
      (fun r => r.building_id)).dedup
  ++ ((t.rows.filter (fun r =>
        decide (r.completed_status = some "Success" ∧ getVal r site_engy_col = .null))).map
      (fun r => r.building_id)).dedup
  ++ ((t.rows.filter (fun r => decide (r.completed_status = none))).map
      (fun r => r.building_id)).dedup

/-- Per-upgrade stamping at load time (comstock.py lines 282-295): the
upgrade id column is set to the upgrade's id on every row; for the baseline
(id 0) the upgrade name is set to `BASE_NAME` and `apply_upgrade.applicable`
is overwritten with `True`.  The dtype housekeeping of lines 297-326
(null-filling of applicability columns, string-to-boolean conversion,
column downselection and categorical encoding) does not change the columns
the claims concern and is not modelled. -/
def stamp_row (uid : Nat) (r : Row) : Row :=
  if uid = 0 then
    { r with upgrade := 0, upgrade_name := BASE_NAME,
             vals := ("apply_upgrade.applicable", Val.bool true) :: r.vals }
  else { r with upgrade := uid }

def stamp_upgrade (uid : Nat) (t : Table) : Table :=
  { schema :=
      if uid = 0 ∧ "apply_upgrade.applicable" ∉ t.schema
      then t.schema ++ ["apply_upgrade.applicable"] else t.schema,
    rows := t.rows.map (stamp_row uid) }

/-- The arguments of `load_data` and the constructor's skip list. -/
structure Config where
  acceptable_failure_percentage : ℚ
  drop_failed_runs : Bool
  upgrade_ids_to_skip : List Nat
deriving DecidableEq

/-- Fatal exits of the modelled `load_data`.  `attributeError` is the
`AttributeError` of comstock.py line 335: when an upgrade's row count
differs from the buildstock.csv count (the guard of line 329), the branch
evaluates `up_res.index`, which does not exist on a polars DataFrame, so
the run crashes there instead of recording the missing building ids (lines
334-336 never complete).  `zeroRows` is the `ZeroDivisionError` of line 366
on an empty table — after the length check it is reachable only when the
buildstock is empty too; `excessFailureRate` the explicit `raise` of line
368; and `missingBaseline` the `KeyError` of the
`upgrade_id_to_results[0]` lookup on line 397 when no baseline table was
loaded. -/
inductive LoadError where
  | attributeError (uid : Nat)
  | zeroRows (uid : Nat)
  | excessFailureRate (uid : Nat)
  | missingBaseline
deriving DecidableEq

/-- The state threaded through the first loop of `load_data`. -/
structure ScanState where
  all_failed_ids : List Nat
  base_failed_ids : List Nat
  processed : List (Nat × Table)
deriving DecidableEq

/-- One iteration of the first loop of `load_data` (comstock.py lines
271-387): skip listed upgrades, stamp the table, crash on a row count that
differs from the buildstock's (the `up_res.index` AttributeError of line
335), record failed ids, fail on an excessive failure rate, optionally
drop failed rows, and store the table for the second loop.  Id sets are
modelled as lists with membership semantics. -/
def scan_baseF (st : ScanState) (ut : Nat × Table) : List Nat :=
  if ut.1 = 0 then st.base_failed_ids ++ up_fail_ids_of (stamp_upgrade ut.1 ut.2)
  else st.base_failed_ids

/-- The drop of failed rows (comstock.py lines 380-385), applied only when
`drop_failed_runs` is set: first the baseline-failed ids, then the
upgrade's own failed ids. -/
def scan_rows (cfg : Config) (st : ScanState) (ut : Nat × Table) : List Row :=
  if cfg.drop_failed_runs then
    ((stamp_upgrade ut.1 ut.2).rows.filter
        (fun r => decide (r.building_id ∉ scan_baseF st ut))).filter
      (fun r => decide (r.building_id ∉ up_fail_ids_of (stamp_upgrade ut.1 ut.2)))
  else (stamp_upgrade ut.1 ut.2).rows

/-- The state after one successful iteration of the first loop: the
upgrade's failed ids appended to the cross-upgrade set (comstock.py line
356; the missing-id update of line 336 is unreachable, since the branch
guarding it crashes on line 335 before reaching it), the baseline set
updated for upgrade 0 (lines 357-358), and the (optionally filtered) table
stored for the second loop (line 387). -/
def scan_result (cfg : Config) (st : ScanState) (ut : Nat × Table) : ScanState :=
  { all_failed_ids :=
      st.all_failed_ids ++ up_fail_ids_of (stamp_upgrade ut.1 ut.2),
    base_failed_ids := scan_baseF st ut,
    processed := st.processed
      ++ [(ut.1, { schema := (stamp_upgrade ut.1 ut.2).schema,
                   rows := scan_rows cfg st ut })] }

/-- The source guards the missing-id branch with
`if not len(up_res) == buildstock_bldg_count` (line 329) and crashes inside
it (line 335); here the continue-case is the positive condition and the
crash the `else`. -/
def scan_one (cfg : Config) (buildstockIds : List Nat) (st : ScanState)
    (ut : Nat × Table) : Except LoadError ScanState :=
  if ut.1 ∈ cfg.upgrade_ids_to_skip then .ok st
  else if (stamp_upgrade ut.1 ut.2).rows.length = buildstockIds.length then
    if (stamp_upgrade ut.1 ut.2).rows.length = 0 then .error (.zeroRows ut.1)
    else if ((up_fail_ids_of (stamp_upgrade ut.1 ut.2)).length : ℚ)
          / ((stamp_upgrade ut.1 ut.2).rows.length : ℚ)
          > cfg.acceptable_failure_percentage then
      .error (.excessFailureRate ut.1)
    else .ok (scan_result cfg st ut)
  else .error (.attributeError ut.1)

/-- The first loop of `load_data`, over the upgrade tables in file order. -/
def scan_upgrades (cfg : Config) (buildstockIds : List Nat) :
    ScanState → List (Nat × Table) → Except LoadError ScanState
  | st, [] => .ok st
  | st, ut :: rest =>
    match scan_one cfg buildstockIds st ut with
    | .error e => .error e
    | .ok st' => scan_upgrades cfg buildstockIds st' rest

/-- First baseline row with a given building id (the by-`building_id` join
partner; ids are unique per table in well-formed inputs). -/
def find_base_row (base : Table) (bid : Nat) : Option Row :=
  base.rows.find? (fun r => decide (r.building_id = bid))

/-- Left join of the baseline-only characteristic columns onto an upgrade
row (comstock.py lines 399-403). -/
def join_char_cols (base : Table) (charCols : List String) (r : Row) : Row :=
  match find_base_row base r.building_id with
  | some b => { r with vals := r.vals ++ charCols.map (fun c => (c, getVal b c)) }
  | none   => { r with vals := r.vals ++ charCols.map (fun c => (c, Val.null)) }

/-- `cols_to_replace` (comstock.py lines 420-432): columns shared between
the baseline table and the (post-join) upgrade table, minus the exclusion
list. -/
def cols_to_replace_of (baseSchema upSchema : List String) : List String :=
  (baseSchema.filter (fun c => decide (c ∈ upSchema))).filter
    (fun c => decide (c ∉ cols_to_leave_alone_vals))

/-- Fallback substitution for one not-applicable row (comstock.py lines
433-437): keep the non-replaced baseline-schema columns from the row itself
and take every `cols_to_replace` column from the baseline row with the same
building id. -/
def substitute_na_row (base : Table) (colsKeep colsRepl : List String) (r : Row) : Row :=
  let keep := colsKeep.map (fun c => (c, getVal r c))
  let repl :=
    match find_base_row base r.building_id with
    | some b => colsRepl.map (fun c => (c, getVal b c))
    | none   => colsRepl.map (fun c => (c, Val.null))
  { r with vals := keep ++ repl }

/-- One iteration of the second loop of `load_data` (comstock.py lines
391-442): drop every building that failed in ANY run, left-join the
baseline-only characteristic columns (skipped for the baseline itself),
split into applicable (`Success`) and not-applicable (`Invalid`) rows,
pass applicable rows through, and apply fallback substitution to the
not-applicable rows (skipped when there are none).  Column sorting and
memory reduction do not change cell values and are not modelled. -/
def pu_rows1 (all_failed : List Nat) (t : Table) : List Row :=
  t.rows.filter (fun r => decide (r.building_id ∉ all_failed))

/-- `bldg_char_cols` without the appended join key (comstock.py line 400):
baseline columns absent from this upgrade's table. -/
def pu_charCols (base t : Table) : List String :=
  base.schema.filter (fun c => decide (c ∉ t.schema))

/-- The upgrade rows after the characteristic-column join (line 403),
skipped for the baseline itself (line 402). -/
def pu_rows2 (all_failed : List Nat) (base : Table) (uid : Nat) (t : Table) :
    List Row :=
  if uid = 0 then pu_rows1 all_failed t
  else (pu_rows1 all_failed t).map (join_char_cols base (pu_charCols base t))

/-- The upgrade table's column set after the characteristic-column join,
against which `shared_cols` is computed (line 420). -/
def pu_upSchema (base : Table) (uid : Nat) (t : Table) : List String :=
  t.schema ++ (if uid = 0 then [] else pu_charCols base t)

def pu_colsRepl (base : Table) (uid : Nat) (t : Table) : List String :=
  cols_to_replace_of base.schema (pu_upSchema base uid t)

/-- `cols_to_keep` (comstock.py line 433), without the re-appended join
key. -/
def pu_colsKeep (base : Table) (uid : Nat) (t : Table) : List String :=
  base.schema.filter (fun c => decide (c ∉ pu_colsRepl base uid t))

def process_upgrade (all_failed : List Nat) (base : Table) (uid : Nat)
    (t : Table) : List Row :=
  if ((pu_rows2 all_failed base uid t).filter
        (fun r => decide (r.completed_status = some "Invalid"))).length = 0 then
    (pu_rows2 all_failed base uid t).filter
      (fun r => decide (r.completed_status = some "Success"))
  else
    (pu_rows2 all_failed base uid t).filter
        (fun r => decide (r.completed_status = some "Success"))
      ++ ((pu_rows2 all_failed base uid t).filter
            (fun r => decide (r.completed_status = some "Invalid"))).map
          (substitute_na_row base (pu_colsKeep base uid t) (pu_colsRepl base uid t))

/-- The two branches of `process_upgrade` coincide: when there are no
not-applicable rows the mapped block is empty. -/
theorem process_upgrade_eq (all_failed : List Nat) (base : Table) (uid : Nat)
    (t : Table) :
    process_upgrade all_failed base uid t
      = (pu_rows2 all_failed base uid t).filter
          (fun r => decide (r.completed_status = some "Success"))
        ++ ((pu_rows2 all_failed base uid t).filter
              (fun r => decide (r.completed_status = some "Invalid"))).map
            (substitute_na_row base (pu_colsKeep base uid t) (pu_colsRepl base uid t)) := by
  rw [process_upgrade]
  split
  · next hlen =>
      rw [List.length_eq_zero.mp hlen]
      simp
  · rfl

/-- The consolidated result of `load_data`, together with the failure
registry's id sets (locals of the source function, exposed here so the
claims can speak about them). -/
structure LoadOutput where
  schema : List String
  data : List Row
  all_failed_ids : List Nat
  base_failed_ids : List Nat
deriving DecidableEq

/-- `load_data` (comstock.py lines 252-450): scan every upgrade table,
then consolidate them against the stored baseline table (the
`upgrade_id_to_results[0]` read on line 397 — the baseline as stored by the
first loop, not re-filtered by `all_failed_ids`), concatenating the
per-upgrade row blocks with a schema-aligning union. -/
def load_data (cfg : Config) (buildstockIds : List Nat)
    (tables : List (Nat × Table)) : Except LoadError LoadOutput :=
  match scan_upgrades cfg buildstockIds ⟨[], [], []⟩ tables with
  | .error e => .error e
  | .ok st =>
    match st.processed.find? (fun ut => decide (ut.1 = 0)) with
    | none => .error .missingBaseline
    | some base0 =>
      .ok { schema := ((st.processed.map (fun ut => ut.2.schema)).flatten).dedup,
            data := (st.processed.map
              (fun ut => process_upgrade st.all_failed_ids base0.2 ut.1 ut.2)).flatten,
            all_failed_ids := st.all_failed_ids,
            base_failed_ids := st.base_failed_ids }

/-- The rows of one upgrade's partition of the consolidated dataset. -/
def partition (data : List Row) (uid : Nat) : List Row :=
  data.filter (fun r => decide (r.upgrade = uid))

/-! ## The savings model (comstock.py lines 1464-1542) -/

/-- Absolute savings for one cell: `base - upgrade` (line 1510). -/
def abs_savings_val (b u : Val) : Val := subV b u

/-- Percent savings for one cell: `(base - upgrade) / base`, then
`fill_null(0.0)`, then `fill_nan(0.0)` (lines 1512-1514).  Nothing fills
infinities. -/
def pct_savings_val (b u : Val) : Val := fillNan0 (fillNull0 (divV (subV b u) b))

/-- Building ids of a row list, sorted ascending (the `sort(self.BLDG_ID)`
of lines 1494 and 1502). -/
def sort_ids (rows : List Row) : List Nat :=
  (rows.map (fun r => r.building_id)).insertionSort (· ≤ ·)

/-- The building-id alignment assertion of
`add_weighted_energy_savings_columns` (comstock.py lines 1493-1507): the
data is grouped by upgrade name, each group's ids are sorted, and the
sorted list must coincide with the sorted ids of the baseline
(`UPGRADE_NAME == BASE_NAME`) slice.  Returns `true` exactly when the
`assert` of line 1507 passes for every group. -/
def savings_alignment_ok (data : List Row) : Bool :=
  let baseIds := sort_ids (data.filter (fun r => decide (r.upgrade_name = BASE_NAME)))
  ((data.map (fun r => r.upgrade_name)).dedup).all
    (fun n => decide (sort_ids (data.filter (fun r => decide (r.upgrade_name = n))) = baseIds))

/-! ## The segment classifier model (comstock.py `add_addressable_segments_columns`, lines 658-783) -/

/-- `hvac_group_map` (comstock.py lines 659-710), applied with `map_dict`:
an unmapped combined type yields null (`none`).  The trailing space in
`'Boiler '` is in the source. -/
def hvac_group_map : String → Option String
  | "Central Multi-zone VAV RTU_Boiler _ACC" => some "Multizone CAV/VAV"
  | "Central Multi-zone VAV RTU_Boiler _DX" => some "Multizone CAV/VAV"
  | "Central Multi-zone VAV RTU_Boiler _District" => some "Multizone CAV/VAV"
  | "Central Multi-zone VAV RTU_Boiler _WCC" => some "Multizone CAV/VAV"
  | "Central Multi-zone VAV RTU_District_ACC" => some "Multizone CAV/VAV"
  | "Central Multi-zone VAV RTU_District_DX" => some "Multizone CAV/VAV"
  | "Central Multi-zone VAV RTU_District_District" => some "Multizone CAV/VAV"
  | "Central Multi-zone VAV RTU_District_WCC" => some "Multizone CAV/VAV"
  | "Central Multi-zone VAV RTU_Electric Resistance_ACC" => some "Multizone CAV/VAV"
  | "Central Multi-zone VAV RTU_Electric Resistance_DX" => some "Multizone CAV/VAV"
  | "Central Multi-zone VAV RTU_Electric Resistance_District" => some "Multizone CAV/VAV"
  | "Central Multi-zone VAV RTU_Electric Resistance_WCC" => some "Multizone CAV/VAV"
  | "Central Multi-zone VAV RTU_Furnace_DX" => some "Multizone CAV/VAV"
  | "Central Single-zone RTU_ASHP_ASHP" => some "Small Packaged Unit"
  | "Central Single-zone RTU_Boiler _DX" => some "Small Packaged Unit"
  | "Central Single-zone RTU_Boiler _Evaporative Cooling" => some "Small Packaged Unit"
  | "Central Single-zone RTU_District_DX" => some "Small Packaged Unit"
  | "Central Single-zone RTU_District_District" => some "Small Packaged Unit"
  | "Central Single-zone RTU_Electric Resistance_DX" => some "Small Packaged Unit"
  | "Central Single-zone RTU_Electric Resistance_District" => some "Small Packaged Unit"
  | "Central Single-zone RTU_Electric Resistance_Evaporative Cooling" => some "Small Packaged Unit"
  | "Central Single-zone RTU_Furnace_DX" => some "Small Packaged Unit"
  | "Central Single-zone RTU_Furnace_Evaporative Cooling" => some "Small Packaged Unit"
  | "DOAS+Zone terminal equipment_ASHP_ASHP" => some "Zone-by-Zone"
  | "DOAS+Zone terminal equipment_Boiler _ACC" => some "Zone-by-Zone"
  | "DOAS+Zone terminal equipment_Boiler _District" => some "Zone-by-Zone"
  | "DOAS+Zone terminal equipment_Boiler _WCC" => some "Zone-by-Zone"
  | "DOAS+Zone terminal equipment_District_ACC" => some "Zone-by-Zone"
  | "DOAS+Zone terminal equipment_District_District" => some "Zone-by-Zone"
  | "DOAS+Zone terminal equipment_District_WCC" => some "Zone-by-Zone"
  | "DOAS+Zone terminal equipment_Electric Resistance_ACC" => some "Zone-by-Zone"
  | "DOAS+Zone terminal equipment_Electric Resistance_District" => some "Zone-by-Zone"
  | "DOAS+Zone terminal equipment_Electric Resistance_WCC" => some "Zone-by-Zone"
  | "DOAS+Zone terminal equipment_GSHP_GSHP" => some "Zone-by-Zone"
  | "DOAS+Zone terminal equipment_WSHP_WSHP" => some "Zone-by-Zone"
  | "Zone terminal equipment_ASHP_ASHP" => some "Zone-by-Zone"
  | "Zone terminal equipment_Boiler _DX" => some "Zone-by-Zone"
  | "Zone terminal equipment_District_DX" => some "Zone-by-Zone"
  | "Zone terminal equipment_Electric Resistance_DX" => some "Zone-by-Zone"
  | "Zone terminal equipment_Furnace_DX" => some "Zone-by-Zone"
  | "Zone terminal equipment_Furnace_None" => some "Zone-by-Zone"
  | "None_Boiler _None" => some "Other HVAC"
  | "None_Electric Resistance_None" => some "Other HVAC"
  | "Residential forced air_Furnace_DX" => some "Residential Style Central Systems"
  | "Residential forced air_Furnace_None" => some "Residential Style Central Systems"
  | _ => none

/-- Building types counted as non-food-service (comstock.py lines 715-716). -/
def non_food_svc : List String :=
  ["RetailStandalone", "Warehouse", "SmallOffice", "LargeHotel", "MediumOffice",
   "PrimarySchool", "Hospital", "SmallHotel", "Outpatient", "SecondarySchool",
   "LargeOffice"]

/-- Food-service building types (comstock.py line 718). -/
def food_svc : List String :=
  ["QuickServiceRestaurant", "FullServiceRestaurant", "RetailStripmall"]

/-- Non-lodging building types (comstock.py lines 720-723). -/
def non_lodging : List String :=
  ["QuickServiceRestaurant", "RetailStripmall", "RetailStandalone", "Warehouse",
   "SmallOffice", "MediumOffice", "PrimarySchool", "FullServiceRestaurant",
   "Hospital", "Outpatient", "SecondarySchool", "LargeOffice"]

/-- Lodging building types (comstock.py line 725). -/
def lodging : List String := ["SmallHotel", "LargeHotel"]

/-- The nine segment labels `self.SEG_A` … `self.SEG_I`.  The constants
live in `NamingMixin` (not under `src/`); modelled from the spec
(§4.5 names them Segment A through Segment I).  The claims depend only on
the nine labels being pairwise distinct and distinct from `'ERROR'`. -/
def segment_labels : List String :=
  ["Segment A", "Segment B", "Segment C", "Segment D", "Segment E",
   "Segment F", "Segment G", "Segment H", "Segment I"]

/-- `self.SEG_NAME`, the segment column (NamingMixin; exact string
immaterial to the claims). -/
def SEG_NAME : String := "calc.segment"

/-- Membership of a cell in a string list, as a polars `is_in` on a
possibly-null column: a null (or non-string) cell matches nothing, and a
`when` condition that evaluates to null selects no rows. -/
def val_is_in (v : Val) (l : List String) : Bool :=
  match v with
  | .str s => decide (s ∈ l)
  | _ => false

/-- Equality of a cell with a string literal under the same null
semantics. -/
def val_eq_str (v : Val) (s : String) : Bool := decide (v = .str s)

/-- The ordered first-match-wins decision list (comstock.py lines 728-777)
over building type, heat type and the derived HVAC category, with the
`otherwise` catch-all `'ERROR'`. -/
def segment_for (btype heat cat : Val) : String :=
  if val_is_in btype non_food_svc && val_eq_str cat "Small Packaged Unit" then
    segment_labels.get ⟨0, by decide⟩
  else if val_is_in btype food_svc && val_eq_str cat "Small Packaged Unit" then
    segment_labels.get ⟨1, by decide⟩
  else if val_is_in heat ["Boiler ", "District"] && val_eq_str cat "Multizone CAV/VAV" then
    segment_labels.get ⟨2, by decide⟩
  else if val_is_in btype lodging && val_eq_str cat "Zone-by-Zone" then
    segment_labels.get ⟨3, by decide⟩
  else if val_eq_str heat "Electric Resistance" && val_eq_str cat "Multizone CAV/VAV" then
    segment_labels.get ⟨4, by decide⟩
  else if val_eq_str heat "Furnace" && val_eq_str cat "Multizone CAV/VAV" then
    segment_labels.get ⟨5, by decide⟩
  else if val_eq_str cat "Residential Style Central Systems" then
    segment_labels.get ⟨6, by decide⟩
  else if val_is_in btype non_lodging && val_eq_str cat "Zone-by-Zone" then
    segment_labels.get ⟨7, by decide⟩
  else if val_eq_str cat "Other HVAC" then
    segment_labels.get ⟨8, by decide⟩
  else "ERROR"

/-- The derived `in.hvac_category` cell of a row (comstock.py line 712). -/
def hvac_category_val (r : Row) : Val :=
  match getVal r "in.hvac_combined_type" with
  | .str s => match hvac_group_map s with
              | some g => .str g
              | none => .null
  | _ => .null

/-- The segment assigned to one consolidated row, reading the derived
`in.hvac_category` column. -/
def row_segment (r : Row) : String :=
  segment_for (getVal r "in.comstock_building_type") (getVal r "in.hvac_heat_type")
    (getVal r "in.hvac_category")

/-- `add_addressable_segments_columns` (comstock.py lines 658-783): derive
the HVAC category column, assign the segment column by the decision list,
count rows whose segment is `'ERROR'`, and raise when the count is
nonzero. -/
def segs_data2 (data : List Row) : List Row :=
  (data.map (fun r => setVal r "in.hvac_category" (hvac_category_val r))).map
    (fun r => setVal r SEG_NAME (Val.str (row_segment r)))

def add_addressable_segments_columns (data : List Row) : Except String (List Row) :=
  if ((segs_data2 data).filter
      (fun r => decide (getVal r SEG_NAME = Val.str "ERROR"))).length > 0 then
    .error "Errors in assigning addressable segments, fix logic."
  else .ok (segs_data2 data)

/-! ## The scaling weight model (comstock.py `add_national_scaling_weights`,
lines 1307-1394, and `add_weighted_area_and_energy_columns`, lines
1396-1400 for the floor-area column) -/

/-- `self.BLDG_TYPE` (NamingMixin): the building-type column.  The string
`'in.comstock_building_type'` appears literally in
`add_addressable_segments_columns`, which reads the same column. -/
def BLDG_TYPE : String := "in.comstock_building_type"

/-- `self.FLR_AREA` (NamingMixin; exact string immaterial): the unweighted
floor-area column created by the rename on comstock.py line 1080. -/
def FLR_AREA : String := "in.sqft"

/-- `self.BLDG_WEIGHT` (NamingMixin; exact string immaterial): the
per-building scaling-weight column. -/
def BLDG_WEIGHT : String := "weight"

/-- `self.col_name_to_weighted` for a unitless column (NamingMixin; the
floor-area weighting on line 1399 passes no units). -/
def col_name_to_weighted (c : String) : String := "calc.weighted." ++ c

/-- One row of the CBECS reference table: building type (possibly null) and
the weighted floor area used as `cbecs[wt_area_col]`. -/
structure CbecsRow where
  bldg_type : Option String
  wtd_area : ℚ
deriving DecidableEq

/-- The building type of a ComStock row as a groupby key: a string cell
gives that type, anything else (null in particular) the null key. -/
def row_bldg_type (r : Row) : Option String :=
  match getVal r BLDG_TYPE with
  | .str s => some s
  | _ => none

/-- The floor-area contribution of a row to a groupby sum.  Polars `sum`
skips null entries, so only numeric cells contribute. -/
def row_area_q (r : Row) : ℚ :=
  match getVal r FLR_AREA with
  | .num q => q
  | _ => 0

/-- Building types present in the ComStock data (comstock.py line 1309,
`unique()` over all upgrades). -/
def comstock_bldg_types (data : List Row) : List (Option String) :=
  (data.map row_bldg_type).dedup

/-- The CBECS copy restricted to ComStock building types (comstock.py lines
1310-1320; both configuration branches produce this restriction). -/
def cbecs_filtered (cbecs : List CbecsRow) (data : List Row) : List CbecsRow :=
  cbecs.filter (fun cr => decide (cr.bldg_type ∈ comstock_bldg_types data))

/-- Group keys of the CBECS floor-area sum (comstock.py line 1328): pandas
`groupby` drops null keys. -/
def cbecs_keys (cbecs : List CbecsRow) (data : List Row) : List String :=
  ((cbecs_filtered cbecs data).filterMap (fun cr => cr.bldg_type)).dedup

/-- Total CBECS weighted floor area of one building type (line 1328). -/
def cbecs_type_sqft (cbecs : List CbecsRow) (data : List Row) (t : String) : ℚ :=
  (((cbecs_filtered cbecs data).filter (fun cr => decide (cr.bldg_type = some t))).map
    (fun cr => cr.wtd_area)).sum

/-- The baseline slice of the consolidated data (comstock.py line 1333). -/
def baseline_rows (data : List Row) : List Row :=
  data.filter (fun r => decide (r.upgrade_name = BASE_NAME))

/-- Group keys of the simulated baseline floor-area sum (line 1334): polars
`groupby` keeps a null key group. -/
def comstock_keys (data : List Row) : List (Option String) :=
  ((baseline_rows data).map row_bldg_type).dedup

/-- Total simulated baseline floor area of one building-type key (line
1334); rows of upgrades other than the baseline never contribute. -/
def comstock_type_sqft (data : List Row) (t : Option String) : ℚ :=
  (((baseline_rows data).filter (fun r => decide (row_bldg_type r = t))).map
    row_area_q).sum

/-- The index of the scale-factor frame (comstock.py line 1340): the pandas
outer concat aligns on the union of the two group indexes. -/
def sf_index (cbecs : List CbecsRow) (data : List Row) : List (Option String) :=
  ((cbecs_keys cbecs data).map some ++ comstock_keys data).dedup

/-- The scale factor at one index entry (comstock.py line 1341): a missing
side of the outer concat is NaN, and the division follows float
semantics (missing denominator gives NaN, zero denominator ±inf). -/
def scale_factor_at (cbecs : List CbecsRow) (data : List Row)
    (t : Option String) : Val :=
  let cb : Val :=
    match t with
    | some s => if s ∈ cbecs_keys cbecs data
                then .num (cbecs_type_sqft cbecs data s) else .nan
    | none => .nan
  let cs : Val :=
    if t ∈ comstock_keys data then .num (comstock_type_sqft data t) else .nan
  divV cb cs

/-- `bldg_type_scale_factors` as first built on comstock.py line 1342. -/
def bldg_type_scale_factors (cbecs : List CbecsRow) (data : List Row) :
    List (Option String × Val) :=
  (sf_index cbecs data).map (fun t => (t, scale_factor_at cbecs data t))

/-- The NaN-key check of comstock.py lines 1343-1347: `np.nan in dict`
tests whether NaN occurs among the KEYS (building types), which happens
exactly when a null building type formed a group; only that entry is
deleted.  Entries whose VALUE is NaN but whose key is a real building type
are not touched. -/
def scale_factors_final (cbecs : List CbecsRow) (data : List Row) :
    List (Option String × Val) :=
  (bldg_type_scale_factors cbecs data).filter (fun p => decide (p.1 ≠ none))

/-- Generic association lookup for the scale-factor dictionary. -/
def flookup : List (Option String × Val) → Option String → Option Val
  | [], _ => none
  | p :: rest, k => if p.1 = k then some p.2 else flookup rest k

/-- Broadcast of the scale factors onto every row (comstock.py line 1380):
`map_dict` over the building-type column; a type without an entry maps to
null. -/
def add_weight_column (cbecs : List CbecsRow) (data : List Row) : List Row :=
  let factors := scale_factors_final cbecs data
  data.map (fun r =>
    setVal r BLDG_WEIGHT ((flookup factors (row_bldg_type r)).getD .null))

/-- The weighted floor-area column (comstock.py lines 1398-1400):
unweighted area times the broadcast weight, stored alongside the
original. -/
def add_weighted_area_column (data : List Row) : List Row :=
  data.map (fun r =>
    setVal r (col_name_to_weighted FLR_AREA)
      (mulV (getVal r FLR_AREA) (getVal r BLDG_WEIGHT)))

/-- The part of `add_national_scaling_weights` the floor-area claims are
about: compute the scale factors, broadcast them, and create the weighted
floor-area column.  (The energy and emissions weighting of lines 1403-1430
applies the same broadcast weight with a unit conversion factor.) -/
def add_national_scaling_weights (cbecs : List CbecsRow) (data : List Row) :
    List Row :=
  add_weighted_area_column (add_weight_column cbecs data)

/-! ## `add_missing_energy_columns` (comstock.py lines 1112-1119) -/

/-- A consolidated dataset with its schema, the shape
`add_missing_energy_columns` works on (`engy_col in self.data` is a column
membership test). -/
structure ConsData where
  schema : List String
  rows : List Row
deriving DecidableEq

/-- `add_missing_energy_columns`: for each tracked energy column (the
caller passes `self.COLS_TOT_ANN_ENGY + self.COLS_ENDUSE_ANN_ENGY`,
constants of `NamingMixin`) absent from the data, add a column that is
`0.0` on every row. -/
def add_missing_energy_columns (tracked : List String) (d : ConsData) : ConsData :=
  tracked.foldl
    (fun acc c =>
      if c ∈ acc.schema then acc
      else { schema := acc.schema ++ [c],
             rows := acc.rows.map (fun r => setVal r c (Val.num 0)) })
    d

/-! ## Well-formedness of inputs

These decidable predicates spell out what raw result tables of one
buildstock look like: unique building ids per table drawn from the
buildstock id list, and completion statuses from the declared vocabulary
(`Success`, `Fail`, `Invalid`, or missing — the spec's §3 data model). -/

def statuses_ok (t : Table) : Prop :=
  ∀ r ∈ t.rows,
    r.completed_status = some "Success" ∨ r.completed_status = some "Fail" ∨
    r.completed_status = some "Invalid" ∨ r.completed_status = none

instance (t : Table) : Decidable (statuses_ok t) := by
  unfold statuses_ok; infer_instance

def table_wf (bs : List Nat) (t : Table) : Prop :=
  (t.rows.map (fun r => r.building_id)).Nodup ∧ ∀ r ∈ t.rows, r.building_id ∈ bs

instance (bs : List Nat) (t : Table) : Decidable (table_wf bs t) := by
  unfold table_wf; infer_instance

def input_wf (bs : List Nat) (tables : List (Nat × Table)) : Prop :=
  bs.Nodup ∧ (tables.map Prod.fst).Nodup ∧
  ∀ ut ∈ tables, table_wf bs ut.2 ∧ statuses_ok ut.2

instance (bs : List Nat) (tables : List (Nat × Table)) :
    Decidable (input_wf bs tables) := by
  unfold input_wf; infer_instance

/-- The spec's failure predicate on a single row (§4.1): `Fail`, fake
success, or missing status. -/
def row_failed (r : Row) : Prop :=
  r.completed_status = some "Fail" ∨
  (r.completed_status = some "Success" ∧ getVal r site_engy_col = .null) ∨
  r.completed_status = none

instance (r : Row) : Decidable (row_failed r) := by
  unfold row_failed; infer_instance

theorem mem_up_fail_iff (t : Table) (b : Nat) :
    b ∈ up_fail_ids_of t ↔ ∃ r ∈ t.rows, r.building_id = b ∧ row_failed r := by
  simp only [up_fail_ids_of, List.mem_append, List.mem_dedup, List.mem_map,
    List.mem_filter, decide_eq_true_eq, row_failed]
  constructor
  · rintro ((⟨r, ⟨hr, hc⟩, hb⟩ | ⟨r, ⟨hr, hc⟩, hb⟩) | ⟨r, ⟨hr, hc⟩, hb⟩)
    · exact ⟨r, hr, hb, Or.inl hc⟩
    · exact ⟨r, hr, hb, Or.inr (Or.inl hc)⟩
    · exact ⟨r, hr, hb, Or.inr (Or.inr hc)⟩
  · rintro ⟨r, hr, hb, (hc | hc | hc)⟩
    · exact Or.inl (Or.inl ⟨r, ⟨hr, hc⟩, hb⟩)
    · exact Or.inl (Or.inr ⟨r, ⟨hr, hc⟩, hb⟩)
    · exact Or.inr ⟨r, ⟨hr, hc⟩, hb⟩

theorem stamp_row_building_id (uid : Nat) (r : Row) :
    (stamp_row uid r).building_id = r.building_id := by
  unfold stamp_row; split <;> rfl

theorem stamp_row_completed_status (uid : Nat) (r : Row) :
    (stamp_row uid r).completed_status = r.completed_status := by
  unfold stamp_row; split <;> rfl

theorem stamp_row_upgrade (uid : Nat) (r : Row) :
    (stamp_row uid r).upgrade = uid := by
  unfold stamp_row
  split
  · simp_all
  · rfl

theorem getVal_stamp_row (uid : Nat) (r : Row) (c : String)
    (hc : c ≠ "apply_upgrade.applicable") :
    getVal (stamp_row uid r) c = getVal r c := by
  unfold stamp_row
  split
  · simp only [getVal, alookup_cons, if_neg (Ne.symm hc)]
  · rfl

theorem row_failed_stamp (uid : Nat) (r : Row) :
    row_failed (stamp_row uid r) ↔ row_failed r := by
  rw [row_failed, row_failed, stamp_row_completed_status,
    getVal_stamp_row uid r site_engy_col (by decide)]

theorem mem_up_fail_stamp (uid : Nat) (t : Table) (b : Nat) :
    b ∈ up_fail_ids_of (stamp_upgrade uid t) ↔ b ∈ up_fail_ids_of t := by
  rw [mem_up_fail_iff, mem_up_fail_iff]
  constructor
  · rintro ⟨r, hr, hb, hf⟩
    rw [stamp_upgrade] at hr
    simp only [List.mem_map] at hr
    obtain ⟨r0, hr0, rfl⟩ := hr
    exact ⟨r0, hr0, by rw [← stamp_row_building_id uid r0, hb],
      (row_failed_stamp uid r0).mp hf⟩
  · rintro ⟨r, hr, hb, hf⟩
    refine ⟨stamp_row uid r, ?_, ?_, (row_failed_stamp uid r).mpr hf⟩
    · rw [stamp_upgrade]; exact List.mem_map_of_mem _ hr
    · rw [stamp_row_building_id, hb]

theorem stamp_upgrade_length (uid : Nat) (t : Table) :
    (stamp_upgrade uid t).rows.length = t.rows.length := by
  rw [stamp_upgrade]; exact List.length_map _ _

theorem stamp_upgrade_bids (uid : Nat) (t : Table) :
    (stamp_upgrade uid t).rows.map (fun r => r.building_id)
      = t.rows.map (fun r => r.building_id) := by
  rw [stamp_upgrade]
  simp only [List.map_map]
  exact List.map_congr_left (fun r _ => stamp_row_building_id uid r)

/-! ## Facts about the first loop of `load_data` -/

/-- The upgrade tables that are not skipped. -/
def retained (cfg : Config) (ts : List (Nat × Table)) : List (Nat × Table) :=
  ts.filter (fun ut => decide (ut.1 ∉ cfg.upgrade_ids_to_skip))

/-- What the first loop guarantees about a stored table: same schema as the
stamped input, rows a sublist of the stamped rows, and no stamped row whose
building id avoids the (final) failed set is dropped. -/
def scan_entry_ok (allF : List Nat) (ut : Nat × Table) (tb : Table) : Prop :=
  tb.schema = (stamp_upgrade ut.1 ut.2).schema ∧
  List.Sublist tb.rows (stamp_upgrade ut.1 ut.2).rows ∧
  ∀ r ∈ (stamp_upgrade ut.1 ut.2).rows, r.building_id ∉ allF → r ∈ tb.rows

theorem scan_one_ok_cases (cfg : Config) (bs : List Nat) (st : ScanState)
    (ut : Nat × Table) (st' : ScanState)
    (hsub : ∀ b ∈ st.base_failed_ids, b ∈ st.all_failed_ids)
    (h : scan_one cfg bs st ut = .ok st') :
    (ut.1 ∈ cfg.upgrade_ids_to_skip ∧ st' = st) ∨
    (ut.1 ∉ cfg.upgrade_ids_to_skip ∧
     ut.2.rows.length = bs.length ∧
     st'.all_failed_ids
       = st.all_failed_ids ++ up_fail_ids_of (stamp_upgrade ut.1 ut.2) ∧
     st'.base_failed_ids
       = (if ut.1 = 0
          then st.base_failed_ids ++ up_fail_ids_of (stamp_upgrade ut.1 ut.2)
          else st.base_failed_ids) ∧
     ∃ tb : Table, st'.processed = st.processed ++ [(ut.1, tb)] ∧
       scan_entry_ok st'.all_failed_ids ut tb) := by
  by_cases hskip : ut.1 ∈ cfg.upgrade_ids_to_skip
  · left
    refine ⟨hskip, ?_⟩
    rw [scan_one, if_pos hskip] at h
    exact ((Except.ok.injEq _ _).mp h).symm
  · right
    rw [scan_one, if_neg hskip] at h
    refine ⟨hskip, ?_⟩
    split at h
    · next hlen =>
        rw [stamp_upgrade_length] at hlen
        refine ⟨hlen, ?_⟩
        split at h
        · exact absurd h (by simp)
        · split at h
          · exact absurd h (by simp)
          · rw [Except.ok.injEq] at h
            subst h
            refine ⟨rfl, rfl, _, rfl, rfl, ?_, ?_⟩
            · rw [scan_rows]
              split
              · exact List.Sublist.trans (List.filter_sublist _) (List.filter_sublist _)
              · exact List.Sublist.refl _
            · intro r hr hnot
              rw [scan_result] at hnot
              simp only [List.mem_append, not_or] at hnot
              rw [scan_rows]
              split
              · refine List.mem_filter.mpr ⟨List.mem_filter.mpr ⟨hr, ?_⟩, ?_⟩
                · refine decide_eq_true ?_
                  intro hbase
                  rw [scan_baseF] at hbase
                  split at hbase
                  · rcases List.mem_append.mp hbase with hb | hb
                    · exact hnot.1 (hsub _ hb)
                    · exact hnot.2 hb
                  · exact hnot.1 (hsub _ hbase)
                · exact decide_eq_true hnot.2
              · exact hr
    · exact absurd h (by simp)

structure ScanFacts (cfg : Config) (bs : List Nat) (st st' : ScanState)
    (ts : List (Nat × Table)) : Prop where
  all_mono : ∀ b ∈ st.all_failed_ids, b ∈ st'.all_failed_ids
  proc_mono : ∀ p ∈ st.processed, p ∈ st'.processed
  all_mem : ∀ b, b ∈ st'.all_failed_ids ↔ b ∈ st.all_failed_ids ∨
    ∃ ut ∈ ts, ut.1 ∉ cfg.upgrade_ids_to_skip ∧
      b ∈ up_fail_ids_of (stamp_upgrade ut.1 ut.2)
  base_mem : ∀ b, b ∈ st'.base_failed_ids ↔ b ∈ st.base_failed_ids ∨
    ∃ ut ∈ ts, ut.1 ∉ cfg.upgrade_ids_to_skip ∧ ut.1 = 0 ∧
      b ∈ up_fail_ids_of (stamp_upgrade ut.1 ut.2)
  ret_len : ∀ ut ∈ ts, ut.1 ∉ cfg.upgrade_ids_to_skip →
    ut.2.rows.length = bs.length
  base_sub_all : ∀ b ∈ st'.base_failed_ids, b ∈ st'.all_failed_ids
  proc_fst : st'.processed.map Prod.fst
    = st.processed.map Prod.fst ++ (retained cfg ts).map Prod.fst
  proc_of : ∀ p ∈ st'.processed, p ∈ st.processed ∨
    ∃ ut ∈ ts, ut.1 ∉ cfg.upgrade_ids_to_skip ∧ p.1 = ut.1 ∧
      scan_entry_ok st'.all_failed_ids ut p.2
  proc_to : ∀ ut ∈ ts, ut.1 ∉ cfg.upgrade_ids_to_skip →
    ∃ tb, (ut.1, tb) ∈ st'.processed ∧ scan_entry_ok st'.all_failed_ids ut tb

theorem scan_upgrades_facts (cfg : Config) (bs : List Nat) :
    ∀ (ts : List (Nat × Table)) (st st' : ScanState),
    (∀ b ∈ st.base_failed_ids, b ∈ st.all_failed_ids) →
    scan_upgrades cfg bs st ts = .ok st' → ScanFacts cfg bs st st' ts := by
  intro ts
  induction ts with
  | nil =>
      intro st st' hsub h
      rw [scan_upgrades] at h
      rw [Except.ok.injEq] at h
      subst h
      exact { all_mono := fun b hb => hb
              proc_mono := fun p hp => hp
              all_mem := by simp
              base_mem := by simp
              ret_len := by simp
              base_sub_all := hsub
              proc_fst := by simp [retained]
              proc_of := fun p hp => Or.inl hp
              proc_to := by simp }
  | cons ut rest ih =>
      intro st st' hsub h
      rw [scan_upgrades] at h
      cases hone : scan_one cfg bs st ut with
      | error e => rw [hone] at h; exact absurd h (by simp)
      | ok st1 =>
      rw [hone] at h
      rcases scan_one_ok_cases cfg bs st ut st1 hsub hone with
        ⟨hskip, heq⟩ | ⟨hskip, hlen1, hall, hbase, tb, hproc, hentry⟩
      · rw [heq] at h
        have F := ih st st' hsub h
        have hret : retained cfg (ut :: rest) = retained cfg rest := by
          simp [retained, List.filter_cons, hskip]
        refine { all_mono := F.all_mono
                 proc_mono := F.proc_mono
                 all_mem := ?_
                 base_mem := ?_
                 ret_len := ?_
                 base_sub_all := F.base_sub_all
                 proc_fst := by rw [F.proc_fst, hret]
                 proc_of := ?_
                 proc_to := ?_ }
        · intro b
          rw [F.all_mem b]
          constructor
          · rintro (hb | ⟨u, hu, hr⟩)
            · exact Or.inl hb
            · exact Or.inr ⟨u, List.mem_cons_of_mem _ hu, hr⟩
          · rintro (hb | ⟨u, hu, hr⟩)
            · exact Or.inl hb
            · rcases List.mem_cons.mp hu with rfl | hu
              · exact absurd hskip hr.1
              · exact Or.inr ⟨u, hu, hr⟩
        · intro b
          rw [F.base_mem b]
          constructor
          · rintro (hb | ⟨u, hu, hr⟩)
            · exact Or.inl hb
            · exact Or.inr ⟨u, List.mem_cons_of_mem _ hu, hr⟩
          · rintro (hb | ⟨u, hu, hr⟩)
            · exact Or.inl hb
            · rcases List.mem_cons.mp hu with rfl | hu
              · exact absurd hskip hr.1
              · exact Or.inr ⟨u, hu, hr⟩
        · intro u hu hus
          rcases List.mem_cons.mp hu with rfl | hu
          · exact absurd hskip hus
          · exact F.ret_len u hu hus
        · intro p hp
          rcases F.proc_of p hp with hin | ⟨u, hu, hr⟩
          · exact Or.inl hin
          · exact Or.inr ⟨u, List.mem_cons_of_mem _ hu, hr⟩
        · intro u hu hus
          rcases List.mem_cons.mp hu with rfl | hu
          · exact absurd hskip hus
          · exact F.proc_to u hu hus
      · have hsub1 : ∀ b ∈ st1.base_failed_ids, b ∈ st1.all_failed_ids := by
          intro b hb
          rw [hbase] at hb
          rw [hall]
          split at hb
          · rcases List.mem_append.mp hb with hb | hb
            · exact List.mem_append_left _ (hsub b hb)
            · exact List.mem_append_right _ hb
          · exact List.mem_append_left _ (hsub b hb)
        have F := ih st1 st' hsub1 h
        have hmono1 : ∀ b ∈ st.all_failed_ids, b ∈ st1.all_failed_ids := by
          intro b hb
          rw [hall]
          exact List.mem_append_left _ hb
        have hentry' : scan_entry_ok st'.all_failed_ids ut tb :=
          ⟨hentry.1, hentry.2.1, fun r hr hnot =>
            hentry.2.2 r hr (fun hin1 => hnot (F.all_mono _ hin1))⟩
        have hret : retained cfg (ut :: rest) = ut :: retained cfg rest := by
          simp [retained, List.filter_cons, hskip]
        refine { all_mono := fun b hb => F.all_mono b (hmono1 b hb)
                 proc_mono := ?_
                 all_mem := ?_
                 base_mem := ?_
                 ret_len := ?_
                 base_sub_all := F.base_sub_all
                 proc_fst := ?_
                 proc_of := ?_
                 proc_to := ?_ }
        · intro p hp
          exact F.proc_mono p (by rw [hproc]; exact List.mem_append_left _ hp)
        · intro b
          rw [F.all_mem b, hall]
          simp only [List.mem_append]
          constructor
          · rintro ((hb | hb) | ⟨u, hu, hr⟩)
            · exact Or.inl hb
            · exact Or.inr ⟨ut, List.mem_cons_self _ _, hskip, hb⟩
            · exact Or.inr ⟨u, List.mem_cons_of_mem _ hu, hr⟩
          · rintro (hb | ⟨u, hu, hus, hr⟩)
            · exact Or.inl (Or.inl hb)
            · rcases List.mem_cons.mp hu with rfl | hu
              · exact Or.inl (Or.inr hr)
              · exact Or.inr ⟨u, hu, hus, hr⟩
        · intro b
          rw [F.base_mem b, hbase]
          constructor
          · rintro (hb | ⟨u, hu, hr⟩)
            · split at hb
              · next h0 =>
                  rcases List.mem_append.mp hb with hb | hb
                  · exact Or.inl hb
                  · exact Or.inr ⟨ut, List.mem_cons_self _ _, hskip, h0, hb⟩
              · exact Or.inl hb
            · exact Or.inr ⟨u, List.mem_cons_of_mem _ hu, hr⟩
          · rintro (hb | ⟨u, hu, hus, h0, hr⟩)
            · left
              split
              · exact List.mem_append_left _ hb
              · exact hb
            · rcases List.mem_cons.mp hu with rfl | hu
              · left
                rw [if_pos h0]
                exact List.mem_append_right _ hr
              · exact Or.inr ⟨u, hu, hus, h0, hr⟩
        · intro u hu hus
          rcases List.mem_cons.mp hu with rfl | hu
          · exact hlen1
          · exact F.ret_len u hu hus
        · rw [F.proc_fst, hproc, hret]
          simp
        · intro p hp
          rcases F.proc_of p hp with hin | ⟨u, hu, hr⟩
          · rw [hproc] at hin
            rcases List.mem_append.mp hin with hin | hin
            · exact Or.inl hin
            · rcases List.mem_singleton.mp hin with rfl
              exact Or.inr ⟨ut, List.mem_cons_self _ _, hskip, rfl, hentry'⟩
          · exact Or.inr ⟨u, List.mem_cons_of_mem _ hu, hr⟩
        · intro u hu hus
          rcases List.mem_cons.mp hu with rfl | hu
          · refine ⟨tb, F.proc_mono _ ?_, hentry'⟩
            rw [hproc]
            exact List.mem_append_right _ (List.mem_singleton_self _)
          · exact F.proc_to u hu hus

/-! ## Row-level preservation facts for the second loop -/

theorem join_char_cols_building_id (base : Table) (cc : List String) (r : Row) :
    (join_char_cols base cc r).building_id = r.building_id := by
  rw [join_char_cols]
  cases find_base_row base r.building_id <;> rfl

theorem join_char_cols_completed_status (base : Table) (cc : List String) (r : Row) :
    (join_char_cols base cc r).completed_status = r.completed_status := by
  rw [join_char_cols]
  cases find_base_row base r.building_id <;> rfl

theorem join_char_cols_upgrade (base : Table) (cc : List String) (r : Row) :
    (join_char_cols base cc r).upgrade = r.upgrade := by
  rw [join_char_cols]
  cases find_base_row base r.building_id <;> rfl

theorem join_char_cols_upgrade_name (base : Table) (cc : List String) (r : Row) :
    (join_char_cols base cc r).upgrade_name = r.upgrade_name := by
  rw [join_char_cols]
  cases find_base_row base r.building_id <;> rfl

theorem substitute_na_row_building_id (base : Table) (ck cr : List String) (r : Row) :
    (substitute_na_row base ck cr r).building_id = r.building_id := rfl

theorem substitute_na_row_completed_status (base : Table) (ck cr : List String) (r : Row) :
    (substitute_na_row base ck cr r).completed_status = r.completed_status := rfl

theorem substitute_na_row_upgrade (base : Table) (ck cr : List String) (r : Row) :
    (substitute_na_row base ck cr r).upgrade = r.upgrade := rfl

theorem substitute_na_row_upgrade_name (base : Table) (ck cr : List String) (r : Row) :
    (substitute_na_row base ck cr r).upgrade_name = r.upgrade_name := rfl

/-- Reading a replaced column of a substituted row: the value comes from
the baseline join partner. -/
theorem getVal_substitute_repl (base : Table) (ck cr : List String) (r : Row)
    (c : String) (hc : c ∈ cr) (hk : c ∉ ck) (b : Row)
    (hb : find_base_row base r.building_id = some b) :
    getVal (substitute_na_row base ck cr r) c = getVal b c := by
  rw [substitute_na_row, getVal]
  show (alookup (ck.map (fun c' => (c', getVal r c'))
      ++ match find_base_row base r.building_id with
         | some b => cr.map (fun c' => (c', getVal b c'))
         | none => cr.map (fun c' => (c', Val.null))) c).getD .null = getVal b c
  rw [hb]
  rw [alookup_append_of_not_mem_left]
  · rw [alookup_map_self cr _ c hc]
    rfl
  · intro hmem
    simp only [List.map_map] at hmem
    have : (Prod.fst ∘ fun c' => (c', getVal r c')) = id := rfl
    rw [this, List.map_id] at hmem
    exact hk hmem

/-- Reading a kept column of a substituted row: the value is the row's
own. -/
theorem getVal_substitute_keep (base : Table) (ck cr : List String) (r : Row)
    (c : String) (hc : c ∈ ck) :
    getVal (substitute_na_row base ck cr r) c = getVal r c := by
  rw [substitute_na_row, getVal]
  show (alookup (ck.map (fun c' => (c', getVal r c')) ++ _) c).getD .null = getVal r c
  rw [alookup_append_of_mem_left]
  · rw [alookup_map_self ck _ c hc]
    rfl
  · simp only [List.map_map]
    have : (Prod.fst ∘ fun c' => (c', getVal r c')) = id := rfl
    rw [this, List.map_id]
    exact hc

/-- Unique-id tables make `find?` by building id deterministic: it returns
the member row itself. -/
theorem find_row_of_mem (rows : List Row)
    (hnd : (rows.map (fun r => r.building_id)).Nodup)
    (b : Row) (hb : b ∈ rows) :
    rows.find? (fun r => decide (r.building_id = b.building_id)) = some b := by
  induction rows with
  | nil => simp at hb
  | cons r rest ih =>
      simp only [List.map_cons, List.nodup_cons] at hnd
      rcases List.mem_cons.mp hb with rfl | hb
      · exact List.find?_cons_of_pos _ (by simp)
      · have hne : ¬ r.building_id = b.building_id := by
          intro he
          exact hnd.1 (he ▸ List.mem_map_of_mem (fun r => r.building_id) hb)
        rw [List.find?_cons_of_neg _ (by simp [hne])]
        exact ih hnd.2 hb

theorem find_base_row_of_mem (base : Table)
    (hnd : (base.rows.map (fun r => r.building_id)).Nodup)
    (b : Row) (hb : b ∈ base.rows) :
    find_base_row base b.building_id = some b := by
  rw [find_base_row]
  exact find_row_of_mem base.rows hnd b hb

/-! ## Facts about `load_data` as a whole -/

theorem load_data_ok_elim (cfg : Config) (bs : List Nat)
    (ts : List (Nat × Table)) (out : LoadOutput)
    (h : load_data cfg bs ts = .ok out) :
    ∃ st base0, scan_upgrades cfg bs ⟨[], [], []⟩ ts = .ok st ∧
      st.processed.find? (fun ut => decide (ut.1 = 0)) = some base0 ∧
      out.all_failed_ids = st.all_failed_ids ∧
      out.base_failed_ids = st.base_failed_ids ∧
      out.data = (st.processed.map
        (fun ut => process_upgrade st.all_failed_ids base0.2 ut.1 ut.2)).flatten := by
  rw [load_data] at h
  cases hscan : scan_upgrades cfg bs ⟨[], [], []⟩ ts with
  | error e => rw [hscan] at h; exact absurd h (by simp)
  | ok st =>
      rw [hscan] at h
      dsimp only at h
      cases hfind : st.processed.find? (fun ut => decide (ut.1 = 0)) with
      | none => rw [hfind] at h; exact absurd h (by simp)
      | some base0 =>
          rw [hfind] at h
          dsimp only at h
          rw [Except.ok.injEq] at h
          subst h
          exact ⟨st, base0, rfl, hfind, rfl, rfl, rfl⟩

theorem pair_eq_of_nodup_fst (ts : List (Nat × Table))
    (hnd : (ts.map Prod.fst).Nodup) (p q : Nat × Table)
    (hp : p ∈ ts) (hq : q ∈ ts) (he : p.1 = q.1) : p = q :=
  List.inj_on_of_nodup_map hnd hp hq he

/-- A building id from the buildstock occurs among every retained upgrade
table's building ids: every retained table survived the row-count check of
comstock.py line 329 (a mismatch would have crashed the scan), so under
unique ids drawn from the buildstock it holds all of them. -/
theorem survivor_mem_bids (cfg : Config) (bs : List Nat)
    (ts : List (Nat × Table)) (st : ScanState)
    (hwf : input_wf bs ts)
    (F : ScanFacts cfg bs ⟨[], [], []⟩ st ts)
    (b : Nat) (hb : b ∈ bs) (hnot : b ∉ st.all_failed_ids)
    (ut : Nat × Table) (hut : ut ∈ ts) (hus : ut.1 ∉ cfg.upgrade_ids_to_skip) :
    b ∈ ut.2.rows.map (fun r => r.building_id) := by
  obtain ⟨hbs, hts, hall⟩ := hwf
  obtain ⟨⟨hnd, hsub⟩, _⟩ := hall ut hut
  have hlen : ut.2.rows.length = bs.length := F.ret_len ut hut hus
  have hcard : bs.toFinset.card ≤ (ut.2.rows.map (fun r => r.building_id)).toFinset.card := by
    rw [List.toFinset_card_of_nodup hnd, List.toFinset_card_of_nodup hbs,
      List.length_map]
    exact le_of_eq hlen.symm
  have hsubf : (ut.2.rows.map (fun r => r.building_id)).toFinset ⊆ bs.toFinset := by
    intro x hx
    rw [List.mem_toFinset] at hx ⊢
    obtain ⟨r, hr, rfl⟩ := List.mem_map.mp hx
    exact hsub r hr
  have := Finset.eq_of_subset_of_card_le hsubf hcard
  rw [← List.mem_toFinset, ← this, List.mem_toFinset] at hb
  exact hb

/-- A surviving row of a retained table has status `Success` or `Invalid`:
under the declared status vocabulary, every other possibility would have
placed its building id in the failed set. -/
theorem survivor_status (cfg : Config) (bs : List Nat)
    (ts : List (Nat × Table)) (st : ScanState)
    (F : ScanFacts cfg bs ⟨[], [], []⟩ st ts)
    (ut : Nat × Table) (hut : ut ∈ ts) (hus : ut.1 ∉ cfg.upgrade_ids_to_skip)
    (hso : statuses_ok ut.2)
    (r : Row) (hr : r ∈ ut.2.rows) (hnot : r.building_id ∉ st.all_failed_ids) :
    r.completed_status = some "Success" ∨ r.completed_status = some "Invalid" := by
  have hfailmem : row_failed r → False := by
    intro hf
    have : r.building_id ∈ up_fail_ids_of (stamp_upgrade ut.1 ut.2) := by
      rw [mem_up_fail_iff]
      refine ⟨stamp_row ut.1 r, ?_, stamp_row_building_id ut.1 r,
        (row_failed_stamp ut.1 r).mpr hf⟩
      rw [stamp_upgrade]
      exact List.mem_map_of_mem _ hr
    exact hnot ((F.all_mem _).mpr (Or.inr ⟨ut, hut, hus, this⟩))
  rcases hso r hr with hs | hs | hs | hs
  · exact Or.inl hs
  · exact absurd (Or.inl hs) hfailmem
  · exact Or.inr hs
  · exact absurd (Or.inr (Or.inr hs)) hfailmem

/-! ## Facts about the per-upgrade blocks of the second loop -/

theorem pu_rows2_mem (allF : List Nat) (base : Table) (uid : Nat) (t : Table)
    (r1 : Row) (h : r1 ∈ pu_rows2 allF base uid t) :
    ∃ r0 ∈ t.rows, r0.building_id ∉ allF ∧
      r1.building_id = r0.building_id ∧
      r1.completed_status = r0.completed_status ∧
      r1.upgrade = r0.upgrade ∧ r1.upgrade_name = r0.upgrade_name := by
  rw [pu_rows2] at h
  split at h
  · obtain ⟨hr, hp⟩ := List.mem_filter.mp h
    exact ⟨r1, hr, of_decide_eq_true hp, rfl, rfl, rfl, rfl⟩
  · obtain ⟨r0, hr0, rfl⟩ := List.mem_map.mp h
    obtain ⟨hr, hp⟩ := List.mem_filter.mp hr0
    exact ⟨r0, hr, of_decide_eq_true hp, join_char_cols_building_id _ _ _,
      join_char_cols_completed_status _ _ _, join_char_cols_upgrade _ _ _,
      join_char_cols_upgrade_name _ _ _⟩

theorem process_upgrade_mem (allF : List Nat) (base : Table) (uid : Nat)
    (t : Table) (r' : Row) (h : r' ∈ process_upgrade allF base uid t) :
    (r'.completed_status = some "Success" ∧ r' ∈ pu_rows2 allF base uid t) ∨
    (∃ r1 ∈ pu_rows2 allF base uid t, r1.completed_status = some "Invalid" ∧
      r' = substitute_na_row base (pu_colsKeep base uid t) (pu_colsRepl base uid t) r1) := by
  rw [process_upgrade_eq] at h
  rcases List.mem_append.mp h with h | h
  · obtain ⟨hr, hp⟩ := List.mem_filter.mp h
    exact Or.inl ⟨of_decide_eq_true hp, hr⟩
  · obtain ⟨r1, hr1, rfl⟩ := List.mem_map.mp h
    obtain ⟨hr, hp⟩ := List.mem_filter.mp hr1
    exact Or.inr ⟨r1, hr, of_decide_eq_true hp, rfl⟩

theorem process_upgrade_upgrade_eq (allF : List Nat) (base : Table) (uid : Nat)
    (t : Table) (hup : ∀ r ∈ t.rows, r.upgrade = uid) :
    ∀ r' ∈ process_upgrade allF base uid t, r'.upgrade = uid := by
  intro r' h
  rcases process_upgrade_mem allF base uid t r' h with ⟨_, h2⟩ | ⟨r1, h2, _, rfl⟩
  · obtain ⟨r0, hr0, _, _, _, hu, _⟩ := pu_rows2_mem allF base uid t r' h2
    rw [hu]
    exact hup r0 hr0
  · obtain ⟨r0, hr0, _, _, _, hu, _⟩ := pu_rows2_mem allF base uid t r1 h2
    rw [substitute_na_row_upgrade, hu]
    exact hup r0 hr0

theorem pu_rows2_bids (allF : List Nat) (base : Table) (uid : Nat) (t : Table) :
    (pu_rows2 allF base uid t).map (fun r => r.building_id)
      = (pu_rows1 allF t).map (fun r => r.building_id) := by
  rw [pu_rows2]
  split
  · rfl
  · rw [List.map_map]
    exact List.map_congr_left (fun r _ => join_char_cols_building_id base _ r)

/-- The building ids of a processed block are a permutation of the building
ids of the failure-filtered rows, provided every surviving row's status is
`Success` or `Invalid` (the two statuses the split of comstock.py lines
405-407 keeps). -/
theorem process_upgrade_bids_perm (allF : List Nat) (base : Table) (uid : Nat)
    (t : Table)
    (hst : ∀ r ∈ pu_rows2 allF base uid t,
      r.completed_status = some "Success" ∨ r.completed_status = some "Invalid") :
    List.Perm
      ((process_upgrade allF base uid t).map (fun r => r.building_id))
      ((pu_rows1 allF t).map (fun r => r.building_id)) := by
  rw [process_upgrade_eq, List.map_append, List.map_map]
  have hsubid : ((fun r => r.building_id)
      ∘ substitute_na_row base (pu_colsKeep base uid t) (pu_colsRepl base uid t))
      = (fun r : Row => r.building_id) := by
    funext r
    exact substitute_na_row_building_id _ _ _ r
  rw [hsubid]
  rw [← List.map_append]
  rw [← pu_rows2_bids allF base uid t]
  refine List.Perm.map _ ?_
  have hcongr :
      (pu_rows2 allF base uid t).filter
          (fun r => decide (r.completed_status = some "Invalid"))
        = (pu_rows2 allF base uid t).filter
          (fun r => !(decide (r.completed_status = some "Success"))) := by
    refine List.filter_congr ?_
    intro r hr
    rcases hst r hr with hs | hs
    · simp [hs]
    · simp [hs]
  rw [hcongr]
  exact List.filter_append_perm _ _

/-- Restricting the flattened per-upgrade blocks to one upgrade id gives
exactly that upgrade's block. -/
theorem filter_flatten_nil (procs : List (Nat × Table))
    (f : Nat × Table → List Row)
    (hf : ∀ p ∈ procs, ∀ r ∈ f p, r.upgrade = p.1)
    (u : Nat) (hno : ∀ p ∈ procs, p.1 ≠ u) :
    ((procs.map f).flatten).filter (fun r => decide (r.upgrade = u)) = [] := by
  induction procs with
  | nil => rfl
  | cons p rest ih =>
      rw [List.map_cons, List.flatten_cons, List.filter_append]
      have h1 : (f p).filter (fun r => decide (r.upgrade = u)) = [] := by
        refine List.filter_eq_nil_iff.mpr ?_
        intro r hr
        simp only [decide_eq_true_eq]
        rw [hf p (List.mem_cons_self _ _) r hr]
        exact hno p (List.mem_cons_self _ _)
      rw [h1, ih (fun q hq => hf q (List.mem_cons_of_mem _ hq))
        (fun q hq => hno q (List.mem_cons_of_mem _ hq)), List.append_nil]

theorem filter_flatten_block (procs : List (Nat × Table))
    (f : Nat × Table → List Row)
    (hf : ∀ p ∈ procs, ∀ r ∈ f p, r.upgrade = p.1)
    (hnd : (procs.map Prod.fst).Nodup)
    (u : Nat) (tb : Table) (hmem : (u, tb) ∈ procs) :
    ((procs.map f).flatten).filter (fun r => decide (r.upgrade = u)) = f (u, tb) := by
  induction procs with
  | nil => simp at hmem
  | cons p rest ih =>
      rw [List.map_cons, List.flatten_cons, List.filter_append]
      rw [List.map_cons, List.nodup_cons] at hnd
      rcases List.mem_cons.mp hmem with rfl | hmem
      · have h1 : (f (u, tb)).filter (fun r => decide (r.upgrade = u)) = f (u, tb) := by
          refine List.filter_eq_self.mpr ?_
          intro r hr
          simp only [decide_eq_true_eq]
          exact hf _ (List.mem_cons_self _ _) r hr
        have h2 : ((rest.map f).flatten).filter (fun r => decide (r.upgrade = u)) = [] := by
          refine filter_flatten_nil rest f
            (fun q hq => hf q (List.mem_cons_of_mem _ hq)) u ?_
          intro q hq he
          apply hnd.1
          show u ∈ List.map Prod.fst rest
          rw [← he]
          exact List.mem_map_of_mem Prod.fst hq
        rw [h1, h2, List.append_nil]
      · have hpu : p.1 ≠ u := by
          intro he
          exact hnd.1 (he ▸ List.mem_map_of_mem Prod.fst hmem)
        have h1 : (f p).filter (fun r => decide (r.upgrade = u)) = [] := by
          refine List.filter_eq_nil_iff.mpr ?_
          intro r hr
          simp only [decide_eq_true_eq]
          rw [hf p (List.mem_cons_self _ _) r hr]
          exact hpu
        rw [h1, ih (fun q hq => hf q (List.mem_cons_of_mem _ hq)) hnd.2 hmem,
          List.nil_append]

theorem stamp_row_upgrade_name (uid : Nat) (r : Row) :
    (stamp_row uid r).upgrade_name = if uid = 0 then BASE_NAME else r.upgrade_name := by
  rw [stamp_row]
  split
  · rfl
  · rfl


/-- Every row of a processed block descends from a row of the stored table,
keeping building id, status, upgrade id and upgrade name. -/
theorem process_upgrade_row_origin (allF : List Nat) (base : Table) (uid : Nat)
    (t : Table) (r' : Row) (h : r' ∈ process_upgrade allF base uid t) :
    ∃ r0 ∈ t.rows, r0.building_id ∉ allF ∧
      r'.building_id = r0.building_id ∧
      r'.completed_status = r0.completed_status ∧
      r'.upgrade = r0.upgrade ∧ r'.upgrade_name = r0.upgrade_name := by
  rcases process_upgrade_mem allF base uid t r' h with ⟨_, h2⟩ | ⟨r1, h2, _, rfl⟩
  · exact pu_rows2_mem allF base uid t r' h2
  · obtain ⟨r0, hr0, hnot, hb, hs, hu, hn⟩ := pu_rows2_mem allF base uid t r1 h2
    exact ⟨r0, hr0, hnot,
      (substitute_na_row_building_id _ _ _ r1).trans hb,
      (substitute_na_row_completed_status _ _ _ r1).trans hs,
      (substitute_na_row_upgrade _ _ _ r1).trans hu,
      (substitute_na_row_upgrade_name _ _ _ r1).trans hn⟩

/-- A member of a stored table is a stamped raw row. -/
theorem entry_row_origin (allF : List Nat) (ut : Nat × Table) (tb : Table)
    (hok : scan_entry_ok allF ut tb) (r : Row) (hr : r ∈ tb.rows) :
    ∃ r00 ∈ ut.2.rows, r = stamp_row ut.1 r00 := by
  have : r ∈ (stamp_upgrade ut.1 ut.2).rows := hok.2.1.subset hr
  rw [stamp_upgrade] at this
  obtain ⟨r00, hr00, rfl⟩ := List.mem_map.mp this
  exact ⟨r00, hr00, rfl⟩

theorem entry_rows1_nodup (allF : List Nat) (ut : Nat × Table) (tb : Table)
    (hok : scan_entry_ok allF ut tb)
    (hnd : (ut.2.rows.map (fun r => r.building_id)).Nodup) :
    ((pu_rows1 allF tb).map (fun r => r.building_id)).Nodup := by
  have h1 : List.Sublist ((pu_rows1 allF tb).map (fun r => r.building_id))
      (tb.rows.map (fun r => r.building_id)) :=
    List.Sublist.map _ (List.filter_sublist _)
  have h2 : List.Sublist (tb.rows.map (fun r => r.building_id))
      ((stamp_upgrade ut.1 ut.2).rows.map (fun r => r.building_id)) :=
    List.Sublist.map _ hok.2.1
  rw [stamp_upgrade_bids] at h2
  exact ((h1.trans h2).nodup hnd)

theorem entry_rows1_mem (cfg : Config) (bs : List Nat)
    (ts : List (Nat × Table)) (st : ScanState)
    (hwf : input_wf bs ts)
    (F : ScanFacts cfg bs ⟨[], [], []⟩ st ts)
    (ut : Nat × Table) (hut : ut ∈ ts) (hus : ut.1 ∉ cfg.upgrade_ids_to_skip)
    (tb : Table) (hok : scan_entry_ok st.all_failed_ids ut tb) :
    ∀ b, b ∈ (pu_rows1 st.all_failed_ids tb).map (fun r => r.building_id)
      ↔ (b ∈ bs ∧ b ∉ st.all_failed_ids) := by
  intro b
  constructor
  · rintro hb
    obtain ⟨r, hr, rfl⟩ := List.mem_map.mp hb
    obtain ⟨hrt, hp⟩ := List.mem_filter.mp hr
    obtain ⟨r00, hr00, rfl⟩ := entry_row_origin st.all_failed_ids ut tb hok r hrt
    rw [stamp_row_building_id]
    rw [stamp_row_building_id] at hp
    exact ⟨(hwf.2.2 ut hut).1.2 r00 hr00, of_decide_eq_true hp⟩
  · rintro ⟨hbs, hnot⟩
    have hbid := survivor_mem_bids cfg bs ts st hwf F b hbs hnot ut hut hus
    obtain ⟨r00, hr00, rfl⟩ := List.mem_map.mp hbid
    have hst : stamp_row ut.1 r00 ∈ tb.rows := by
      refine hok.2.2 _ ?_ ?_
      · rw [stamp_upgrade]
        exact List.mem_map_of_mem _ hr00
      · rw [stamp_row_building_id]
        exact hnot
    refine List.mem_map.mpr ⟨stamp_row ut.1 r00, ?_, stamp_row_building_id _ _⟩
    refine List.mem_filter.mpr ⟨hst, ?_⟩
    rw [stamp_row_building_id]
    exact decide_eq_true hnot

/-- The consolidated dataset's shape, proved once and shared by the claims
about `load_data`. -/
structure ConsolidationFacts (cfg : Config) (bs : List Nat)
    (ts : List (Nat × Table)) (out : LoadOutput) : Prop where
  all_mem : ∀ b, b ∈ out.all_failed_ids ↔
    ∃ ut ∈ ts, ut.1 ∉ cfg.upgrade_ids_to_skip ∧
      b ∈ up_fail_ids_of (stamp_upgrade ut.1 ut.2)
  base_mem : ∀ b, b ∈ out.base_failed_ids ↔
    ∃ ut ∈ ts, ut.1 ∉ cfg.upgrade_ids_to_skip ∧ ut.1 = 0 ∧
      b ∈ up_fail_ids_of (stamp_upgrade ut.1 ut.2)
  ret_len : ∀ ut ∈ ts, ut.1 ∉ cfg.upgrade_ids_to_skip →
    ut.2.rows.length = bs.length
  part_nodup : ∀ ut ∈ ts, ut.1 ∉ cfg.upgrade_ids_to_skip →
    ((partition out.data ut.1).map (fun r => r.building_id)).Nodup
  part_mem : ∀ ut ∈ ts, ut.1 ∉ cfg.upgrade_ids_to_skip → ∀ b,
    b ∈ (partition out.data ut.1).map (fun r => r.building_id)
      ↔ (b ∈ bs ∧ b ∉ out.all_failed_ids)
  part_nil : ∀ u, u ∉ (retained cfg ts).map Prod.fst → partition out.data u = []
  row_upgrade : ∀ r ∈ out.data, r.upgrade ∈ (retained cfg ts).map Prod.fst
  row_name : ∀ r ∈ out.data, ∃ ut ∈ ts, ut.1 ∉ cfg.upgrade_ids_to_skip ∧
    r.upgrade = ut.1 ∧
    ((ut.1 = 0 ∧ r.upgrade_name = BASE_NAME) ∨
     (ut.1 ≠ 0 ∧ ∃ r00 ∈ ut.2.rows, r.upgrade_name = r00.upgrade_name))
  base_retained : 0 ∈ (retained cfg ts).map Prod.fst

theorem consolidation_facts (cfg : Config) (bs : List Nat)
    (ts : List (Nat × Table)) (out : LoadOutput)
    (hwf : input_wf bs ts) (h : load_data cfg bs ts = .ok out) :
    ConsolidationFacts cfg bs ts out := by
  obtain ⟨st, base0, hscan, hfind, hallo, hbaseo, hdata⟩ :=
    load_data_ok_elim cfg bs ts out h
  have F := scan_upgrades_facts cfg bs ts ⟨[], [], []⟩ st
    (by intro b hb; simp at hb) hscan
  have hpfst : st.processed.map Prod.fst = (retained cfg ts).map Prod.fst := by
    have := F.proc_fst
    simpa using this
  have hpnodup : (st.processed.map Prod.fst).Nodup := by
    rw [hpfst]
    exact (List.Sublist.map _ (List.filter_sublist ts)).nodup hwf.2.1
  have hrows_upg : ∀ p ∈ st.processed, ∀ r ∈ p.2.rows, r.upgrade = p.1 := by
    intro p hp r hr
    rcases F.proc_of p hp with hin | ⟨ut, _, _, hfst, hok⟩
    · simp at hin
    · obtain ⟨r00, _, rfl⟩ := entry_row_origin st.all_failed_ids ut p.2 hok r hr
      rw [stamp_row_upgrade, hfst]
  have hblockf : ∀ p ∈ st.processed,
      ∀ r ∈ process_upgrade st.all_failed_ids base0.2 p.1 p.2, r.upgrade = p.1 :=
    fun p hp => process_upgrade_upgrade_eq _ _ _ _ (hrows_upg p hp)
  have hblock : ∀ u tb, (u, tb) ∈ st.processed →
      partition out.data u = process_upgrade st.all_failed_ids base0.2 u tb := by
    intro u tb hmem
    rw [hdata, partition]
    exact filter_flatten_block st.processed
      (fun p => process_upgrade st.all_failed_ids base0.2 p.1 p.2)
      hblockf hpnodup u tb hmem
  have hentry : ∀ ut ∈ ts, ut.1 ∉ cfg.upgrade_ids_to_skip → ∃ tb,
      (ut.1, tb) ∈ st.processed ∧ scan_entry_ok st.all_failed_ids ut tb :=
    F.proc_to
  have hbret : 0 ∈ (retained cfg ts).map Prod.fst := by
    have hb0 : base0 ∈ st.processed := List.mem_of_find?_eq_some hfind
    have hp0 : base0.1 = 0 := by
      have := List.find?_some hfind
      simpa using this
    rw [← hpfst, ← hp0]
    exact List.mem_map_of_mem Prod.fst hb0
  refine { all_mem := ?_, base_mem := ?_, ret_len := F.ret_len,
           part_nodup := ?_, part_mem := ?_,
           part_nil := ?_, row_upgrade := ?_, row_name := ?_,
           base_retained := hbret }
  · intro b
    rw [hallo, F.all_mem b]
    simp
  · intro b
    rw [hbaseo, F.base_mem b]
    simp
  · intro ut hut hus
    obtain ⟨tb, hmem, hok⟩ := hentry ut hut hus
    rw [hblock ut.1 tb hmem]
    have hdich : ∀ r1 ∈ pu_rows2 st.all_failed_ids base0.2 ut.1 tb,
        r1.completed_status = some "Success" ∨ r1.completed_status = some "Invalid" := by
      intro r1 hr1
      obtain ⟨r0, hr0, hnot, _, hs, _, _⟩ := pu_rows2_mem _ _ _ _ r1 hr1
      obtain ⟨r00, hr00, rfl⟩ := entry_row_origin st.all_failed_ids ut tb hok r0 hr0
      rw [hs, stamp_row_completed_status]
      rw [stamp_row_building_id] at hnot
      exact survivor_status cfg bs ts st F ut hut hus (hwf.2.2 ut hut).2 r00 hr00 hnot
    have hperm := process_upgrade_bids_perm st.all_failed_ids base0.2 ut.1 tb hdich
    exact hperm.nodup_iff.mpr
      (entry_rows1_nodup st.all_failed_ids ut tb hok (hwf.2.2 ut hut).1.1)
  · intro ut hut hus b
    obtain ⟨tb, hmem, hok⟩ := hentry ut hut hus
    rw [hblock ut.1 tb hmem, hallo]
    have hdich : ∀ r1 ∈ pu_rows2 st.all_failed_ids base0.2 ut.1 tb,
        r1.completed_status = some "Success" ∨ r1.completed_status = some "Invalid" := by
      intro r1 hr1
      obtain ⟨r0, hr0, hnot, _, hs, _, _⟩ := pu_rows2_mem _ _ _ _ r1 hr1
      obtain ⟨r00, hr00, rfl⟩ := entry_row_origin st.all_failed_ids ut tb hok r0 hr0
      rw [hs, stamp_row_completed_status]
      rw [stamp_row_building_id] at hnot
      exact survivor_status cfg bs ts st F ut hut hus (hwf.2.2 ut hut).2 r00 hr00 hnot
    have hperm := process_upgrade_bids_perm st.all_failed_ids base0.2 ut.1 tb hdich
    rw [hperm.mem_iff]
    exact entry_rows1_mem cfg bs ts st hwf F ut hut hus tb hok b
  · intro u hu
    rw [hdata, partition]
    refine filter_flatten_nil st.processed
      (fun p => process_upgrade st.all_failed_ids base0.2 p.1 p.2) hblockf u ?_
    intro p hp he
    exact hu (he ▸ (hpfst ▸ List.mem_map_of_mem Prod.fst hp))
  · intro r hr
    rw [hdata] at hr
    obtain ⟨l, hl, hrl⟩ := List.mem_flatten.mp hr
    obtain ⟨p, hp, rfl⟩ := List.mem_map.mp hl
    rw [hblockf p hp r hrl, ← hpfst]
    exact List.mem_map_of_mem Prod.fst hp
  · intro r hr
    rw [hdata] at hr
    obtain ⟨l, hl, hrl⟩ := List.mem_flatten.mp hr
    obtain ⟨p, hp, rfl⟩ := List.mem_map.mp hl
    rcases F.proc_of p hp with hin | ⟨ut, hut, hus, hfst, hok⟩
    · simp at hin
    · obtain ⟨r0, hr0, _, _, _, hu, hn⟩ :=
        process_upgrade_row_origin st.all_failed_ids base0.2 p.1 p.2 r hrl
      obtain ⟨r00, hr00, rfl⟩ := entry_row_origin st.all_failed_ids ut p.2 hok r0 hr0
      refine ⟨ut, hut, hus, ?_, ?_⟩
      · rw [hu, stamp_row_upgrade]
      · by_cases h0 : ut.1 = 0
        · refine Or.inl ⟨h0, ?_⟩
          rw [hn, stamp_row_upgrade_name, if_pos h0]
        · refine Or.inr ⟨h0, r00, hr00, ?_⟩
          rw [hn, stamp_row_upgrade_name, if_neg h0]

/-! ## Error behaviour of the first loop (for the failure-rate claim) -/

theorem scan_one_error_cases (cfg : Config) (bs : List Nat) (st : ScanState)
    (ut : Nat × Table) (e : LoadError)
    (h : scan_one cfg bs st ut = .error e) :
    ut.1 ∉ cfg.upgrade_ids_to_skip ∧
    ((e = .attributeError ut.1 ∧
       ¬ (stamp_upgrade ut.1 ut.2).rows.length = bs.length) ∨
     (e = .zeroRows ut.1 ∧ (stamp_upgrade ut.1 ut.2).rows.length = bs.length ∧
       (stamp_upgrade ut.1 ut.2).rows.length = 0) ∨
     (e = .excessFailureRate ut.1 ∧
       (stamp_upgrade ut.1 ut.2).rows.length = bs.length ∧
       ((up_fail_ids_of (stamp_upgrade ut.1 ut.2)).length : ℚ)
         / ((stamp_upgrade ut.1 ut.2).rows.length : ℚ)
         > cfg.acceptable_failure_percentage)) := by
  by_cases hskip : ut.1 ∈ cfg.upgrade_ids_to_skip
  · rw [scan_one, if_pos hskip] at h
    exact absurd h (by simp)
  · rw [scan_one, if_neg hskip] at h
    refine ⟨hskip, ?_⟩
    split at h
    · next hlen =>
        split at h
        · next h0 =>
            rw [Except.error.injEq] at h
            exact Or.inr (Or.inl ⟨h.symm, hlen, h0⟩)
        · split at h
          · next hrate =>
              rw [Except.error.injEq] at h
              exact Or.inr (Or.inr ⟨h.symm, hlen, hrate⟩)
          · exact absurd h (by simp)
    · next hlen =>
        rw [Except.error.injEq] at h
        exact Or.inl ⟨h.symm, hlen⟩

theorem scan_one_error_of_len (cfg : Config) (bs : List Nat) (st : ScanState)
    (ut : Nat × Table) (hskip : ut.1 ∉ cfg.upgrade_ids_to_skip)
    (hlen : ¬ (stamp_upgrade ut.1 ut.2).rows.length = bs.length) :
    scan_one cfg bs st ut = .error (.attributeError ut.1) := by
  rw [scan_one, if_neg hskip, if_neg hlen]

theorem scan_one_error_of_rate (cfg : Config) (bs : List Nat) (st : ScanState)
    (ut : Nat × Table) (hskip : ut.1 ∉ cfg.upgrade_ids_to_skip)
    (hlenbs : (stamp_upgrade ut.1 ut.2).rows.length = bs.length)
    (hlen : ¬ (stamp_upgrade ut.1 ut.2).rows.length = 0)
    (hrate : ((up_fail_ids_of (stamp_upgrade ut.1 ut.2)).length : ℚ)
      / ((stamp_upgrade ut.1 ut.2).rows.length : ℚ)
      > cfg.acceptable_failure_percentage) :
    scan_one cfg bs st ut = .error (.excessFailureRate ut.1) := by
  rw [scan_one, if_neg hskip, if_pos hlenbs, if_neg hlen, if_pos hrate]

theorem scan_upgrades_error_iff (cfg : Config) (bs : List Nat) :
    ∀ (ts : List (Nat × Table)) (st : ScanState),
    (∀ ut ∈ ts, ut.1 ∉ cfg.upgrade_ids_to_skip →
      ¬ ((stamp_upgrade ut.1 ut.2).rows.length = bs.length ∧
         (stamp_upgrade ut.1 ut.2).rows.length = 0)) →
    (((∃ e, scan_upgrades cfg bs st ts = .error e) ↔
       ∃ ut ∈ ts, ut.1 ∉ cfg.upgrade_ids_to_skip ∧
         (¬ (stamp_upgrade ut.1 ut.2).rows.length = bs.length ∨
          ((up_fail_ids_of (stamp_upgrade ut.1 ut.2)).length : ℚ)
            / ((stamp_upgrade ut.1 ut.2).rows.length : ℚ)
            > cfg.acceptable_failure_percentage)) ∧
     ∀ e, scan_upgrades cfg bs st ts = .error e →
       (∃ u, e = .excessFailureRate u) ∨ ∃ u, e = .attributeError u) := by
  intro ts
  induction ts with
  | nil =>
      intro st _
      constructor
      · constructor
        · rintro ⟨e, he⟩
          rw [scan_upgrades] at he
          exact absurd he (by simp)
        · rintro ⟨ut, hut, _⟩
          simp at hut
      · intro e he
        rw [scan_upgrades] at he
        exact absurd he (by simp)
  | cons ut rest ih =>
      intro st hnz
      have hnzr : ∀ u ∈ rest, u.1 ∉ cfg.upgrade_ids_to_skip →
          ¬ ((stamp_upgrade u.1 u.2).rows.length = bs.length ∧
             (stamp_upgrade u.1 u.2).rows.length = 0) :=
        fun u hu => hnz u (List.mem_cons_of_mem _ hu)
      cases hone : scan_one cfg bs st ut with
      | error e0 =>
          obtain ⟨hskip, hcases⟩ := scan_one_error_cases cfg bs st ut e0 hone
          have hviol : (¬ (stamp_upgrade ut.1 ut.2).rows.length = bs.length ∨
              ((up_fail_ids_of (stamp_upgrade ut.1 ut.2)).length : ℚ)
                / ((stamp_upgrade ut.1 ut.2).rows.length : ℚ)
                > cfg.acceptable_failure_percentage) ∧
              ((∃ u, e0 = .excessFailureRate u) ∨
               ∃ u, e0 = .attributeError u) := by
            rcases hcases with ⟨he, hl⟩ | ⟨he, hl, h0⟩ | ⟨he, hl, hr⟩
            · exact ⟨Or.inl hl, Or.inr ⟨ut.1, he⟩⟩
            · exact absurd ⟨hl, h0⟩ (hnz ut (List.mem_cons_self _ _) hskip)
            · exact ⟨Or.inr hr, Or.inl ⟨ut.1, he⟩⟩
          have hsc : scan_upgrades cfg bs st (ut :: rest) = .error e0 := by
            rw [scan_upgrades, hone]
          constructor
          · constructor
            · intro _
              exact ⟨ut, List.mem_cons_self _ _, hskip, hviol.1⟩
            · intro _
              exact ⟨e0, hsc⟩
          · intro e he
            rw [hsc, Except.error.injEq] at he
            rw [← he]
            exact hviol.2
      | ok st1 =>
          have hsc : scan_upgrades cfg bs st (ut :: rest)
              = scan_upgrades cfg bs st1 rest := by
            rw [scan_upgrades, hone]
          obtain ⟨ihiff, ihkind⟩ := ih st1 hnzr
          constructor
          · constructor
            · rintro ⟨e, he⟩
              rw [hsc] at he
              obtain ⟨u, hu, hr⟩ := ihiff.mp ⟨e, he⟩
              exact ⟨u, List.mem_cons_of_mem _ hu, hr⟩
            · rintro ⟨u, hu, hus, hviol⟩
              rcases List.mem_cons.mp hu with rfl | hu
              · rcases hviol with hlen | hrate
                · exact absurd hone (by
                    rw [scan_one_error_of_len cfg bs st u hus hlen]
                    simp)
                · by_cases hlen : (stamp_upgrade u.1 u.2).rows.length = bs.length
                  · have hlen0 : ¬ (stamp_upgrade u.1 u.2).rows.length = 0 := by
                      intro h0
                      exact hnz u (List.mem_cons_self _ _) hus ⟨hlen, h0⟩
                    exact absurd hone (by
                      rw [scan_one_error_of_rate cfg bs st u hus hlen hlen0 hrate]
                      simp)
                  · exact absurd hone (by
                      rw [scan_one_error_of_len cfg bs st u hus hlen]
                      simp)
              · obtain ⟨e, he⟩ := ihiff.mpr ⟨u, hu, hus, hviol⟩
                exact ⟨e, by rw [hsc]; exact he⟩
          · intro e he
            rw [hsc] at he
            exact ihkind e he

theorem load_data_error_elim (cfg : Config) (bs : List Nat)
    (ts : List (Nat × Table)) (e : LoadError)
    (h : load_data cfg bs ts = .error e) :
    scan_upgrades cfg bs ⟨[], [], []⟩ ts = .error e ∨
    (∃ st, scan_upgrades cfg bs ⟨[], [], []⟩ ts = .ok st ∧
      st.processed.find? (fun ut => decide (ut.1 = 0)) = none ∧
      e = .missingBaseline) := by
  rw [load_data] at h
  cases hscan : scan_upgrades cfg bs ⟨[], [], []⟩ ts with
  | error e0 =>
      rw [hscan] at h
      dsimp only at h
      rw [Except.error.injEq] at h
      exact Or.inl (h ▸ rfl)
  | ok st =>
      rw [hscan] at h
      dsimp only at h
      cases hfind : st.processed.find? (fun ut => decide (ut.1 = 0)) with
      | none =>
          rw [hfind] at h
          dsimp only at h
          rw [Except.error.injEq] at h
          exact Or.inr ⟨st, rfl, hfind, h.symm⟩
      | some base0 =>
          rw [hfind] at h
          exact absurd h (by simp)

theorem load_data_error_of_scan (cfg : Config) (bs : List Nat)
    (ts : List (Nat × Table)) (e : LoadError)
    (h : scan_upgrades cfg bs ⟨[], [], []⟩ ts = .error e) :
    load_data cfg bs ts = .error e := by
  rw [load_data, h]

/-! ## The claims -/

/-- C4: for every row of every upgrade result table, the failure registry
classifies the row's building as failed exactly when its completion status
is `Fail`, or is `Success` while the primary (total site) energy output is
null, or is missing; and the baseline (upgrade id 0) table's failed ids are
exactly what the dedicated baseline-failed set holds after `load_data`. -/
theorem C4_failure_classification (cfg : Config) (bs : List Nat)
    (ts : List (Nat × Table)) (out : LoadOutput) (T0 : Table)
    (hwf : input_wf bs ts) (hT0 : (0, T0) ∈ ts)
    (h : load_data cfg bs ts = .ok out) :
    (∀ (t : Table) (b : Nat), b ∈ up_fail_ids_of t ↔
      ∃ r ∈ t.rows, r.building_id = b ∧
        (r.completed_status = some "Fail" ∨
         (r.completed_status = some "Success" ∧ getVal r site_engy_col = .null) ∨
         r.completed_status = none)) ∧
    (∀ b, b ∈ out.base_failed_ids ↔ b ∈ up_fail_ids_of T0) := by
  have CF := consolidation_facts cfg bs ts out hwf h
  refine ⟨fun t b => mem_up_fail_iff t b, ?_⟩
  intro b
  rw [CF.base_mem b]
  constructor
  · rintro ⟨ut, hut, hus, h0, hb⟩
    have hpe : ut = (0, T0) :=
      pair_eq_of_nodup_fst ts hwf.2.1 ut (0, T0) hut hT0 (by rw [h0])
    rw [hpe] at hb
    exact (mem_up_fail_stamp 0 T0 b).mp hb
  · intro hb
    obtain ⟨ut0, hut0, h00⟩ := List.mem_map.mp CF.base_retained
    obtain ⟨_, hpred⟩ := List.mem_filter.mp hut0
    have h0skip : (0 : Nat) ∉ cfg.upgrade_ids_to_skip := by
      have := of_decide_eq_true hpred
      rw [h00] at this
      exact this
    exact ⟨(0, T0), hT0, h0skip, rfl, (mem_up_fail_stamp 0 T0 b).mpr hb⟩

/-- C2 (amended): every building id in the cross-upgrade failed set occurs
zero times in every upgrade's partition of the consolidated dataset, and
every other buildstock id occurs exactly once in every retained upgrade's
partition.  The failed set of a completed run consists exactly of the
status-based failures of the retained upgrades: ids missing from a raw
table are never recorded in it, because a table whose row count differs
from the buildstock's aborts `load_data` at comstock.py line 335 (the
`up_res.index` AttributeError) before the update of line 336 — so every
retained table of a completed run has the buildstock's row count. -/
theorem C2_cross_upgrade_exclusion (cfg : Config) (bs : List Nat)
    (ts : List (Nat × Table)) (out : LoadOutput)
    (hwf : input_wf bs ts) (hdrop : cfg.drop_failed_runs = true)
    (h : load_data cfg bs ts = .ok out) :
    (∀ b ∈ out.all_failed_ids, ∀ u : Nat,
      ((partition out.data u).map (fun r => r.building_id)).count b = 0) ∧
    (∀ b ∈ bs, b ∉ out.all_failed_ids → ∀ ut ∈ ts,
      ut.1 ∉ cfg.upgrade_ids_to_skip →
      ((partition out.data ut.1).map (fun r => r.building_id)).count b = 1) ∧
    (∀ b, b ∈ out.all_failed_ids ↔
      ∃ ut ∈ ts, ut.1 ∉ cfg.upgrade_ids_to_skip ∧
        b ∈ up_fail_ids_of (stamp_upgrade ut.1 ut.2)) ∧
    (∀ ut ∈ ts, ut.1 ∉ cfg.upgrade_ids_to_skip →
      ut.2.rows.length = bs.length) := by
  have CF := consolidation_facts cfg bs ts out hwf h
  refine ⟨?_, ?_, CF.all_mem, CF.ret_len⟩
  · intro b hb u
    by_cases hu : u ∈ (retained cfg ts).map Prod.fst
    · obtain ⟨ut, hut, rfl⟩ := List.mem_map.mp hu
      obtain ⟨hmem, hpred⟩ := List.mem_filter.mp hut
      rw [List.count_eq_zero]
      intro hin
      exact ((CF.part_mem ut hmem (of_decide_eq_true hpred) b).mp hin).2 hb
    · rw [CF.part_nil u hu]
      simp
  · intro b hbs hnot ut hut hus
    exact List.count_eq_one_of_mem (CF.part_nodup ut hut hus)
      ((CF.part_mem ut hut hus b).mpr ⟨hbs, hnot⟩)

/-- C5 (amended): with a loadable baseline and a nonempty buildstock,
`load_data` aborts exactly when some retained upgrade's raw table has a
row count different from the buildstock's (the line-335 `up_res.index`
AttributeError, raised before the rate check ever runs) or some retained
upgrade's failure rate strictly exceeds the acceptable threshold; every
abort is one of those two errors (no consolidated output is produced);
and when every retained table matches the buildstock's row count, the
abort condition reduces to the failure-rate comparison alone, so a rate
at or below the threshold never aborts. -/
theorem C5_failure_rate_abort (cfg : Config) (bs : List Nat)
    (ts : List (Nat × Table)) (hbs : bs ≠ [])
    (T0 : Table) (hT0 : (0, T0) ∈ ts) (h0s : (0 : Nat) ∉ cfg.upgrade_ids_to_skip) :
    ((∃ e, load_data cfg bs ts = .error e) ↔
      ∃ ut ∈ ts, ut.1 ∉ cfg.upgrade_ids_to_skip ∧
        (¬ ut.2.rows.length = bs.length ∨
         ((up_fail_ids_of (stamp_upgrade ut.1 ut.2)).length : ℚ)
           / (ut.2.rows.length : ℚ) > cfg.acceptable_failure_percentage)) ∧
    (∀ e, load_data cfg bs ts = .error e →
      (∃ u, e = .excessFailureRate u) ∨ ∃ u, e = .attributeError u) ∧
    ((∀ ut ∈ ts, ut.1 ∉ cfg.upgrade_ids_to_skip →
        ut.2.rows.length = bs.length) →
      ((∃ e, load_data cfg bs ts = .error e) ↔
        ∃ ut ∈ ts, ut.1 ∉ cfg.upgrade_ids_to_skip ∧
          ((up_fail_ids_of (stamp_upgrade ut.1 ut.2)).length : ℚ)
            / (ut.2.rows.length : ℚ) > cfg.acceptable_failure_percentage)) := by
  have hnz' : ∀ ut ∈ ts, ut.1 ∉ cfg.upgrade_ids_to_skip →
      ¬ ((stamp_upgrade ut.1 ut.2).rows.length = bs.length ∧
         (stamp_upgrade ut.1 ut.2).rows.length = 0) := by
    rintro ut hut hus ⟨h1, h2⟩
    rw [h2] at h1
    exact hbs (List.eq_nil_of_length_eq_zero h1.symm)
  obtain ⟨siff, skind⟩ := scan_upgrades_error_iff cfg bs ts ⟨[], [], []⟩ hnz'
  have hconv : ∀ ut : Nat × Table,
      ((¬ (stamp_upgrade ut.1 ut.2).rows.length = bs.length ∨
        ((up_fail_ids_of (stamp_upgrade ut.1 ut.2)).length : ℚ)
          / ((stamp_upgrade ut.1 ut.2).rows.length : ℚ)
          > cfg.acceptable_failure_percentage)) ↔
      ((¬ ut.2.rows.length = bs.length ∨
        ((up_fail_ids_of (stamp_upgrade ut.1 ut.2)).length : ℚ)
          / (ut.2.rows.length : ℚ)
          > cfg.acceptable_failure_percentage)) := by
    intro ut
    rw [stamp_upgrade_length]
  have hbase_found : ∀ st, scan_upgrades cfg bs ⟨[], [], []⟩ ts = .ok st →
      ¬ st.processed.find? (fun ut => decide (ut.1 = 0)) = none := by
    intro st hscan hfind
    have F := scan_upgrades_facts cfg bs ts ⟨[], [], []⟩ st
      (by intro b hb; simp at hb) hscan
    obtain ⟨tb, hmem, _⟩ := F.proc_to (0, T0) hT0 h0s
    rw [List.find?_eq_none] at hfind
    exact hfind (0, tb) hmem (by simp)
  have hmain : (∃ e, load_data cfg bs ts = .error e) ↔
      ∃ ut ∈ ts, ut.1 ∉ cfg.upgrade_ids_to_skip ∧
        (¬ ut.2.rows.length = bs.length ∨
         ((up_fail_ids_of (stamp_upgrade ut.1 ut.2)).length : ℚ)
           / (ut.2.rows.length : ℚ) > cfg.acceptable_failure_percentage) := by
    constructor
    · rintro ⟨e, he⟩
      rcases load_data_error_elim cfg bs ts e he with hsc | ⟨st, hscan, hfind, _⟩
      · obtain ⟨ut, hut, hus, hr⟩ := siff.mp ⟨e, hsc⟩
        exact ⟨ut, hut, hus, (hconv ut).mp hr⟩
      · exact absurd hfind (hbase_found st hscan)
    · rintro ⟨ut, hut, hus, hr⟩
      obtain ⟨e, he⟩ := siff.mpr ⟨ut, hut, hus, (hconv ut).mpr hr⟩
      exact ⟨e, load_data_error_of_scan cfg bs ts e he⟩
  refine ⟨hmain, ?_, ?_⟩
  · intro e he
    rcases load_data_error_elim cfg bs ts e he with hsc | ⟨st, hscan, hfind, _⟩
    · exact skind e hsc
    · exact absurd hfind (hbase_found st hscan)
  · intro hall
    rw [hmain]
    constructor
    · rintro ⟨ut, hut, hus, hlen | hrate⟩
      · exact absurd (hall ut hut hus) hlen
      · exact ⟨ut, hut, hus, hrate⟩
    · rintro ⟨ut, hut, hus, hrate⟩
      exact ⟨ut, hut, hus, Or.inr hrate⟩

/-- C3: after consolidation with failure dropping, every retained upgrade
partition's sorted building ids equal the baseline partition's sorted
building ids, so the building-id alignment assertion of the savings
calculator (the grouping by upgrade name, sorting, and list comparison of
comstock.py lines 1493-1507) passes for every group: under these
consolidation preconditions its failure branch is unreachable.  The
hypotheses about `nameOf` say each upgrade table carries one constant
upgrade name, names do not collide across retained upgrades, and no
non-baseline upgrade reuses the baseline's name. -/
theorem C3_building_id_alignment (cfg : Config) (bs : List Nat)
    (ts : List (Nat × Table)) (out : LoadOutput) (nameOf : Nat → String)
    (hwf : input_wf bs ts) (hdrop : cfg.drop_failed_runs = true)
    (hname : ∀ ut ∈ ts, ut.1 ≠ 0 → ∀ r ∈ ut.2.rows, r.upgrade_name = nameOf ut.1)
    (hinj : ∀ u1 ∈ (retained cfg ts).map Prod.fst,
        ∀ u2 ∈ (retained cfg ts).map Prod.fst,
        (if u1 = 0 then BASE_NAME else nameOf u1)
          = (if u2 = 0 then BASE_NAME else nameOf u2) → u1 = u2)
    (h : load_data cfg bs ts = .ok out) :
    (∀ ut ∈ ts, ut.1 ∉ cfg.upgrade_ids_to_skip →
      sort_ids (partition out.data ut.1) = sort_ids (partition out.data 0)) ∧
    savings_alignment_ok out.data = true := by
  have CF := consolidation_facts cfg bs ts out hwf h
  have key : ∀ u ∈ (retained cfg ts).map Prod.fst,
      ∃ ut ∈ ts, ut.1 = u ∧ ut.1 ∉ cfg.upgrade_ids_to_skip := by
    intro u hu
    obtain ⟨ut, hut, rfl⟩ := List.mem_map.mp hu
    obtain ⟨hmem, hpred⟩ := List.mem_filter.mp hut
    exact ⟨ut, hmem, rfl, of_decide_eq_true hpred⟩
  have hpart2 : ∀ u ∈ (retained cfg ts).map Prod.fst,
      ((partition out.data u).map (fun r => r.building_id)).Nodup ∧
      ∀ b, b ∈ (partition out.data u).map (fun r => r.building_id)
        ↔ (b ∈ bs ∧ b ∉ out.all_failed_ids) := by
    intro u hu
    obtain ⟨ut, hut, rfl, hus⟩ := key u hu
    exact ⟨CF.part_nodup ut hut hus, CF.part_mem ut hut hus⟩
  have hsort_pair : ∀ u1 ∈ (retained cfg ts).map Prod.fst,
      ∀ u2 ∈ (retained cfg ts).map Prod.fst,
      sort_ids (partition out.data u1) = sort_ids (partition out.data u2) := by
    intro u1 hu1 u2 hu2
    obtain ⟨nd1, m1⟩ := hpart2 u1 hu1
    obtain ⟨nd2, m2⟩ := hpart2 u2 hu2
    have hperm : List.Perm
        ((partition out.data u1).map (fun r => r.building_id))
        ((partition out.data u2).map (fun r => r.building_id)) := by
      refine List.perm_of_nodup_nodup_toFinset_eq nd1 nd2 ?_
      ext b
      rw [List.mem_toFinset, List.mem_toFinset, m1 b, m2 b]
    rw [sort_ids, sort_ids]
    exact List.eq_of_perm_of_sorted
      ((List.perm_insertionSort _ _).trans
        (hperm.trans (List.perm_insertionSort _ _).symm))
      (List.sorted_insertionSort _ _) (List.sorted_insertionSort _ _)
  have hparta : ∀ ut ∈ ts, ut.1 ∉ cfg.upgrade_ids_to_skip →
      sort_ids (partition out.data ut.1) = sort_ids (partition out.data 0) := by
    intro ut hut hus
    refine hsort_pair ut.1 ?_ 0 CF.base_retained
    refine List.mem_map_of_mem Prod.fst ?_
    exact List.mem_filter.mpr ⟨hut, decide_eq_true hus⟩
  refine ⟨hparta, ?_⟩
  have hrowname : ∀ r ∈ out.data,
      r.upgrade_name = (if r.upgrade = 0 then BASE_NAME else nameOf r.upgrade) := by
    intro r hr
    obtain ⟨ut, hut, hus, hup, hcase⟩ := CF.row_name r hr
    rcases hcase with ⟨h0, hn⟩ | ⟨h0, r00, hr00, hn⟩
    · rw [hn, hup, h0]
      simp
    · rw [hn, hname ut hut h0 r00 hr00, hup, if_neg h0]
  have hgroup : ∀ u ∈ (retained cfg ts).map Prod.fst,
      out.data.filter (fun r =>
        decide (r.upgrade_name = (if u = 0 then BASE_NAME else nameOf u)))
        = partition out.data u := by
    intro u hu
    rw [partition]
    refine List.filter_congr ?_
    intro r hr
    rw [decide_eq_decide]
    constructor
    · intro hrn
      refine hinj r.upgrade (CF.row_upgrade r hr) u hu ?_
      rw [← hrowname r hr, hrn]
    · intro hru
      rw [hrowname r hr, hru]
  have hbase_group :
      out.data.filter (fun r => decide (r.upgrade_name = BASE_NAME))
        = partition out.data 0 := by
    have := hgroup 0 CF.base_retained
    simpa using this
  rw [savings_alignment_ok]
  refine List.all_eq_true.mpr ?_
  intro n hn
  refine decide_eq_true ?_
  obtain ⟨r, hr, rfl⟩ := List.mem_map.mp (List.mem_dedup.mp hn)
  rw [hbase_group]
  have hu := CF.row_upgrade r hr
  have heq : (fun rr : Row => decide (rr.upgrade_name = r.upgrade_name))
      = (fun rr : Row => decide (rr.upgrade_name
          = (if r.upgrade = 0 then BASE_NAME else nameOf r.upgrade))) := by
    rw [← hrowname r hr]
  rw [heq, hgroup r.upgrade hu]
  exact hsort_pair r.upgrade hu 0 CF.base_retained

theorem abs_savings_self_num (q : ℚ) :
    abs_savings_val (.num q) (.num q) = .num 0 := by
  rw [abs_savings_val]
  show Val.num (q - q) = Val.num 0
  rw [sub_self]

theorem pct_savings_self_num (q : ℚ) :
    pct_savings_val (.num q) (.num q) = .num 0 := by
  by_cases hq : q = 0
  · subst hq
    simp [pct_savings_val, subV, divV, fillNull0, fillNan0]
  · rw [pct_savings_val]
    show fillNan0 (fillNull0 (divV (Val.num (q - q)) (Val.num q))) = Val.num 0
    rw [sub_self]
    rw [divV]
    rw [if_neg hq, zero_div]
    rfl

/-- C1: a surviving not-applicable (`Invalid`) row of a non-baseline
upgrade carries, on every column of the baseline table outside the
exclusion list, exactly the consolidated baseline row's value for the same
building; consequently, wherever the baseline value is a (finite) number —
every tracked energy and emissions quantity in particular — the absolute
savings the savings calculator later computes from the two values is 0 and
the percent savings is 0. -/
theorem C1_invalid_fallback_substitution (cfg : Config) (bs : List Nat)
    (ts : List (Nat × Table)) (out : LoadOutput) (T0 : Table)
    (hwf : input_wf bs ts) (hT0 : (0, T0) ∈ ts)
    (h : load_data cfg bs ts = .ok out) :
    ∀ r ∈ out.data, r.upgrade ≠ 0 → r.completed_status = some "Invalid" →
      ∃ rb ∈ out.data, rb.upgrade = 0 ∧ rb.building_id = r.building_id ∧
        ∀ c ∈ (stamp_upgrade 0 T0).schema, c ∉ cols_to_leave_alone_vals →
          getVal r c = getVal rb c ∧
          (∀ q : ℚ, getVal rb c = Val.num q →
            abs_savings_val (getVal rb c) (getVal r c) = Val.num 0 ∧
            pct_savings_val (getVal rb c) (getVal r c) = Val.num 0) := by
  obtain ⟨st, base0, hscan, hfind, hallo, hbaseo, hdata⟩ :=
    load_data_ok_elim cfg bs ts out h
  have F := scan_upgrades_facts cfg bs ts ⟨[], [], []⟩ st
    (by intro b hb; simp at hb) hscan
  have CF := consolidation_facts cfg bs ts out hwf h
  have h0skip : (0 : Nat) ∉ cfg.upgrade_ids_to_skip := by
    obtain ⟨ut0, hut0, h00⟩ := List.mem_map.mp CF.base_retained
    obtain ⟨_, hpred⟩ := List.mem_filter.mp hut0
    have := of_decide_eq_true hpred
    rw [h00] at this
    exact this
  have hb0mem : base0 ∈ st.processed := List.mem_of_find?_eq_some hfind
  have hb01 : base0.1 = 0 := by
    have := List.find?_some hfind
    simpa using this
  have hokB : scan_entry_ok st.all_failed_ids (0, T0) base0.2 := by
    rcases F.proc_of base0 hb0mem with hin | ⟨ut0, hut0, _, hfst0, hok0⟩
    · simp at hin
    · have : ut0 = (0, T0) :=
        pair_eq_of_nodup_fst ts hwf.2.1 ut0 (0, T0) hut0 hT0 (by rw [← hfst0, hb01])
      rw [← this]
      exact hok0
  have hschB : base0.2.schema = (stamp_upgrade 0 T0).schema := hokB.1
  have hndB : (base0.2.rows.map (fun rr => rr.building_id)).Nodup := by
    have h2 : List.Sublist (base0.2.rows.map (fun rr => rr.building_id))
        ((stamp_upgrade 0 T0).rows.map (fun rr => rr.building_id)) :=
      List.Sublist.map _ hokB.2.1
    rw [stamp_upgrade_bids] at h2
    exact h2.nodup (hwf.2.2 (0, T0) hT0).1.1
  intro r hr hru hrst
  rw [hdata] at hr
  obtain ⟨l, hl, hrl⟩ := List.mem_flatten.mp hr
  obtain ⟨p, hp, rfl⟩ := List.mem_map.mp hl
  obtain huporig : ∀ rr ∈ p.2.rows, rr.upgrade = p.1 := by
    intro rr hrr
    rcases F.proc_of p hp with hin | ⟨ut, _, _, hfst, hok⟩
    · simp at hin
    · obtain ⟨r00, _, rfl⟩ := entry_row_origin st.all_failed_ids ut p.2 hok rr hrr
      rw [stamp_row_upgrade, hfst]
  have hrup : r.upgrade = p.1 :=
    process_upgrade_upgrade_eq _ _ _ _ huporig r hrl
  have hp10 : p.1 ≠ 0 := by
    intro he
    exact hru (hrup.trans he)
  rcases F.proc_of p hp with hin | ⟨ut, hut, hus, hfst, hok⟩
  · simp at hin
  rcases process_upgrade_mem _ _ _ _ r hrl with ⟨hsucc, _⟩ | ⟨r1, hr1, hinv, hsub⟩
  · rw [hrst] at hsucc
    exact absurd hsucc (by simp)
  obtain ⟨r0, hr0, hnotall, hbid10, _, _, _⟩ := pu_rows2_mem _ _ _ _ r1 hr1
  obtain ⟨r00, hr00, hr0eq⟩ := entry_row_origin st.all_failed_ids ut p.2 hok r0 hr0
  have hbidbs : r1.building_id ∈ bs := by
    rw [hbid10, hr0eq, stamp_row_building_id]
    exact (hwf.2.2 ut hut).1.2 r00 hr00
  have hbidnot : r1.building_id ∉ st.all_failed_ids := by
    rw [hbid10]
    exact hnotall
  -- the baseline row with this building id
  obtain hmemb := survivor_mem_bids cfg bs ts st hwf F r1.building_id hbidbs
    hbidnot (0, T0) hT0 h0skip
  obtain ⟨b00, hb00, hb00id⟩ := List.mem_map.mp hmemb
  have hbBmem : stamp_row 0 b00 ∈ base0.2.rows := by
    refine hokB.2.2 _ ?_ ?_
    · rw [stamp_upgrade]
      exact List.mem_map_of_mem _ hb00
    · rw [stamp_row_building_id, hb00id]
      exact hbidnot
  have hbBid : (stamp_row 0 b00).building_id = r1.building_id := by
    rw [stamp_row_building_id, hb00id]
  have hfindB : find_base_row base0.2 r1.building_id = some (stamp_row 0 b00) := by
    rw [← hbBid]
    exact find_base_row_of_mem base0.2 hndB _ hbBmem
  -- the not-applicable row's replaced values come from that baseline row
  have hcolsR : ∀ c ∈ (stamp_upgrade 0 T0).schema, c ∉ cols_to_leave_alone_vals →
      c ∈ pu_colsRepl base0.2 p.1 p.2 := by
    intro c hc hcl
    rw [pu_colsRepl, cols_to_replace_of]
    refine List.mem_filter.mpr ⟨List.mem_filter.mpr ⟨?_, decide_eq_true ?_⟩,
      decide_eq_true hcl⟩
    · rw [hschB]
      exact hc
    · rw [pu_upSchema, if_neg hp10]
      by_cases hcp : c ∈ p.2.schema
      · exact List.mem_append_left _ hcp
      · refine List.mem_append_right _ ?_
        rw [pu_charCols]
        refine List.mem_filter.mpr ⟨?_, decide_eq_true hcp⟩
        rw [hschB]
        exact hc
  have hcolsK : ∀ c, c ∈ pu_colsRepl base0.2 p.1 p.2 →
      c ∉ pu_colsKeep base0.2 p.1 p.2 := by
    intro c hcr hck
    rw [pu_colsKeep] at hck
    exact (of_decide_eq_true (List.mem_filter.mp hck).2) hcr
  have hcolsK0 : ∀ c, c ∈ pu_colsRepl base0.2 base0.1 base0.2 →
      c ∉ pu_colsKeep base0.2 base0.1 base0.2 := by
    intro c hcr hck
    rw [pu_colsKeep] at hck
    exact (of_decide_eq_true (List.mem_filter.mp hck).2) hcr
  have hrval : ∀ c ∈ (stamp_upgrade 0 T0).schema, c ∉ cols_to_leave_alone_vals →
      getVal r c = getVal (stamp_row 0 b00) c := by
    intro c hc hcl
    rw [hsub]
    refine getVal_substitute_repl base0.2 _ _ r1 c (hcolsR c hc hcl)
      (hcolsK c (hcolsR c hc hcl)) _ hfindB
  -- the consolidated baseline row for that building
  have hstatusB : (stamp_row 0 b00).completed_status = some "Success" ∨
      (stamp_row 0 b00).completed_status = some "Invalid" := by
    rw [stamp_row_completed_status]
    refine survivor_status cfg bs ts st F (0, T0) hT0 h0skip
      (hwf.2.2 (0, T0) hT0).2 b00 hb00 ?_
    rw [← stamp_row_building_id 0 b00, hbBid]
    exact hbidnot
  have hbB1 : stamp_row 0 b00 ∈ pu_rows1 st.all_failed_ids base0.2 := by
    rw [pu_rows1]
    refine List.mem_filter.mpr ⟨hbBmem, decide_eq_true ?_⟩
    rw [hbBid]
    exact hbidnot
  have hbB2 : stamp_row 0 b00 ∈ pu_rows2 st.all_failed_ids base0.2 base0.1 base0.2 := by
    rw [pu_rows2, if_pos hb01]
    exact hbB1
  -- membership of a row of the baseline block in the output
  have hblockmem : ∀ rb, rb ∈ process_upgrade st.all_failed_ids base0.2 base0.1 base0.2 →
      rb ∈ out.data := by
    intro rb hrb
    rw [hdata]
    refine List.mem_flatten.mpr ⟨_, List.mem_map_of_mem
      (fun q => process_upgrade st.all_failed_ids base0.2 q.1 q.2) hb0mem, hrb⟩
  -- replaced columns of the baseline block's own row agree with the stored row
  have hcolsR0 : ∀ c ∈ (stamp_upgrade 0 T0).schema, c ∉ cols_to_leave_alone_vals →
      c ∈ pu_colsRepl base0.2 base0.1 base0.2 := by
    intro c hc hcl
    rw [pu_colsRepl, cols_to_replace_of]
    refine List.mem_filter.mpr ⟨List.mem_filter.mpr ⟨?_, decide_eq_true ?_⟩,
      decide_eq_true hcl⟩
    · rw [hschB]; exact hc
    · rw [pu_upSchema]
      refine List.mem_append_left _ ?_
      rw [hschB]; exact hc
  rcases hstatusB with hsB | hsB
  · -- baseline row passed through unchanged
    refine ⟨stamp_row 0 b00, ?_, ?_, ?_, ?_⟩
    · refine hblockmem _ ?_
      rw [process_upgrade_eq]
      refine List.mem_append_left _ (List.mem_filter.mpr ⟨hbB2, decide_eq_true hsB⟩)
    · rw [stamp_row_upgrade]
    · have hridr : r.building_id = r1.building_id := by
        rw [hsub, substitute_na_row_building_id]
      rw [hbBid, hridr]
    · intro c hc hcl
      have hv := hrval c hc hcl
      refine ⟨hv, ?_⟩
      intro q hq
      rw [hv, hq]
      exact ⟨abs_savings_self_num q, pct_savings_self_num q⟩
  · -- baseline row itself went through fallback substitution
    set rb := substitute_na_row base0.2 (pu_colsKeep base0.2 base0.1 base0.2)
      (pu_colsRepl base0.2 base0.1 base0.2) (stamp_row 0 b00) with hrbdef
    have hrbval : ∀ c ∈ (stamp_upgrade 0 T0).schema, c ∉ cols_to_leave_alone_vals →
        getVal rb c = getVal (stamp_row 0 b00) c := by
      intro c hc hcl
      rw [hrbdef]
      refine getVal_substitute_repl base0.2 _ _ _ c (hcolsR0 c hc hcl)
        (hcolsK0 c (hcolsR0 c hc hcl)) _ ?_
      rw [hbBid]
      exact hfindB
    refine ⟨rb, ?_, ?_, ?_, ?_⟩
    · refine hblockmem _ ?_
      rw [process_upgrade_eq]
      refine List.mem_append_right _ ?_
      exact List.mem_map_of_mem _ (List.mem_filter.mpr ⟨hbB2, decide_eq_true hsB⟩)
    · rw [hrbdef, substitute_na_row_upgrade, stamp_row_upgrade]
    · have hridr : r.building_id = r1.building_id := by
        rw [hsub, substitute_na_row_building_id]
      rw [hrbdef, substitute_na_row_building_id, hbBid, hridr]
    · intro c hc hcl
      have hv : getVal r c = getVal rb c := by
        rw [hrval c hc hcl, hrbval c hc hcl]
      refine ⟨hv, ?_⟩
      intro q hq
      rw [hv, hq]
      exact ⟨abs_savings_self_num q, pct_savings_self_num q⟩

/-! ## A concrete run used to instantiate the `load_data` claims

Three buildings, a baseline and one upgrade; building 2 fails in the
upgrade only, building 3's upgrade is not applicable. -/

def sample_bs : List Nat := [1, 2, 3]

def sample_row (b : Nat) (st : Option String) (nm : String) (site : Val)
    (area : Val) : Row :=
  { building_id := b, completed_status := st, upgrade := 99, upgrade_name := nm,
    vals := [(site_engy_col, site), ("in.sqft", area), ("job_id", Val.num 7)] }

def sample_T0 : Table :=
  { schema := [site_engy_col, "in.sqft", "job_id"],
    rows := [sample_row 1 (some "Success") "b" (Val.num 100) (Val.num 11),
             sample_row 2 (some "Success") "b" (Val.num 100) (Val.num 12),
             sample_row 3 (some "Success") "b" (Val.num 100) (Val.num 13)] }

def sample_T1 : Table :=
  { schema := [site_engy_col, "in.sqft", "job_id"],
    rows := [sample_row 1 (some "Success") "Up1" (Val.num 90) (Val.num 11),
             sample_row 2 (some "Fail") "Up1" Val.null (Val.num 12),
             sample_row 3 (some "Invalid") "Up1" Val.null Val.null] }

def sample_cfg : Config :=
  { acceptable_failure_percentage := 1/2, drop_failed_runs := true,
    upgrade_ids_to_skip := [] }

def sample_ts : List (Nat × Table) := [(0, sample_T0), (1, sample_T1)]

def sample_st0 : ScanState :=
  scan_result sample_cfg ⟨[], [], []⟩ (0, sample_T0)

def sample_st : ScanState :=
  scan_result sample_cfg sample_st0 (1, sample_T1)

def sample_base_tb : Table :=
  { schema := (stamp_upgrade 0 sample_T0).schema,
    rows := scan_rows sample_cfg ⟨[], [], []⟩ (0, sample_T0) }

def sample_out : LoadOutput :=
  { schema := ((sample_st.processed.map (fun ut => ut.2.schema)).flatten).dedup,
    data := (sample_st.processed.map
      (fun ut => process_upgrade sample_st.all_failed_ids sample_base_tb ut.1 ut.2)).flatten,
    all_failed_ids := sample_st.all_failed_ids,
    base_failed_ids := sample_st.base_failed_ids }

theorem sample_scan_one_0 :
    scan_one sample_cfg sample_bs ⟨[], [], []⟩ (0, sample_T0) = .ok sample_st0 := by
  have hrate : ¬ (((up_fail_ids_of (stamp_upgrade (0, sample_T0).1 (0, sample_T0).2)).length : ℚ)
      / (((stamp_upgrade (0, sample_T0).1 (0, sample_T0).2).rows.length : ℚ))
      > sample_cfg.acceptable_failure_percentage) := by
    have e1 : up_fail_ids_of (stamp_upgrade (0, sample_T0).1 (0, sample_T0).2) = [] := by
      decide
    have e2 : (stamp_upgrade (0, sample_T0).1 (0, sample_T0).2).rows.length = 3 := by
      decide
    rw [e1, e2]
    norm_num [sample_cfg]
  rw [scan_one, if_neg (by decide), if_pos (by decide), if_neg (by decide),
    if_neg hrate]
  rfl

theorem sample_scan_one_1 :
    scan_one sample_cfg sample_bs sample_st0 (1, sample_T1) = .ok sample_st := by
  have hrate : ¬ (((up_fail_ids_of (stamp_upgrade (1, sample_T1).1 (1, sample_T1).2)).length : ℚ)
      / (((stamp_upgrade (1, sample_T1).1 (1, sample_T1).2).rows.length : ℚ))
      > sample_cfg.acceptable_failure_percentage) := by
    have e1 : up_fail_ids_of (stamp_upgrade (1, sample_T1).1 (1, sample_T1).2) = [2] := by
      decide
    have e2 : (stamp_upgrade (1, sample_T1).1 (1, sample_T1).2).rows.length = 3 := by
      decide
    rw [e1, e2]
    norm_num [sample_cfg]
  rw [scan_one, if_neg (by decide), if_pos (by decide), if_neg (by decide),
    if_neg hrate]
  rfl

theorem sample_scan :
    scan_upgrades sample_cfg sample_bs ⟨[], [], []⟩ sample_ts = .ok sample_st := by
  show scan_upgrades sample_cfg sample_bs ⟨[], [], []⟩ ((0, sample_T0) :: [(1, sample_T1)])
    = .ok sample_st
  rw [scan_upgrades, sample_scan_one_0]
  show scan_upgrades sample_cfg sample_bs sample_st0 ((1, sample_T1) :: [])
    = .ok sample_st
  rw [scan_upgrades, sample_scan_one_1]
  rfl

theorem sample_load :
    load_data sample_cfg sample_bs sample_ts = .ok sample_out := by
  rw [load_data, sample_scan]
  dsimp only
  rw [show sample_st.processed.find? (fun ut => decide (ut.1 = 0))
      = some (0, sample_base_tb) from rfl]
  rfl

def sample_nameOf : Nat → String := fun u => if u = 1 then "Up1" else "other"

theorem C1_witness :
    input_wf sample_bs sample_ts ∧ (0, sample_T0) ∈ sample_ts ∧
    (∀ r ∈ sample_out.data, r.upgrade ≠ 0 → r.completed_status = some "Invalid" →
      ∃ rb ∈ sample_out.data, rb.upgrade = 0 ∧ rb.building_id = r.building_id ∧
        ∀ c ∈ (stamp_upgrade 0 sample_T0).schema, c ∉ cols_to_leave_alone_vals →
          getVal r c = getVal rb c ∧
          (∀ q : ℚ, getVal rb c = Val.num q →
            abs_savings_val (getVal rb c) (getVal r c) = Val.num 0 ∧
            pct_savings_val (getVal rb c) (getVal r c) = Val.num 0)) :=
  ⟨by decide, by decide,
    C1_invalid_fallback_substitution sample_cfg sample_bs sample_ts sample_out
      sample_T0 (by decide) (by decide) sample_load⟩

theorem C2_witness :
    input_wf sample_bs sample_ts ∧ sample_cfg.drop_failed_runs = true ∧
    ((∀ b ∈ sample_out.all_failed_ids, ∀ u : Nat,
        ((partition sample_out.data u).map (fun r => r.building_id)).count b = 0) ∧
     (∀ b ∈ sample_bs, b ∉ sample_out.all_failed_ids → ∀ ut ∈ sample_ts,
        ut.1 ∉ sample_cfg.upgrade_ids_to_skip →
        ((partition sample_out.data ut.1).map (fun r => r.building_id)).count b = 1) ∧
     (∀ b, b ∈ sample_out.all_failed_ids ↔
        ∃ ut ∈ sample_ts, ut.1 ∉ sample_cfg.upgrade_ids_to_skip ∧
          b ∈ up_fail_ids_of (stamp_upgrade ut.1 ut.2)) ∧
     (∀ ut ∈ sample_ts, ut.1 ∉ sample_cfg.upgrade_ids_to_skip →
        ut.2.rows.length = sample_bs.length)) :=
  ⟨by decide, rfl,
    C2_cross_upgrade_exclusion sample_cfg sample_bs sample_ts sample_out
      (by decide) rfl sample_load⟩

theorem C3_witness :
    input_wf sample_bs sample_ts ∧ sample_cfg.drop_failed_runs = true ∧
    (∀ ut ∈ sample_ts, ut.1 ≠ 0 → ∀ r ∈ ut.2.rows,
      r.upgrade_name = sample_nameOf ut.1) ∧
    ((∀ ut ∈ sample_ts, ut.1 ∉ sample_cfg.upgrade_ids_to_skip →
        sort_ids (partition sample_out.data ut.1)
          = sort_ids (partition sample_out.data 0)) ∧
     savings_alignment_ok sample_out.data = true) :=
  ⟨by decide, rfl, by decide,
    C3_building_id_alignment sample_cfg sample_bs sample_ts sample_out
      sample_nameOf (by decide) rfl (by decide) (by decide) sample_load⟩

theorem C4_witness :
    input_wf sample_bs sample_ts ∧ (0, sample_T0) ∈ sample_ts ∧
    ((∀ (t : Table) (b : Nat), b ∈ up_fail_ids_of t ↔
        ∃ r ∈ t.rows, r.building_id = b ∧
          (r.completed_status = some "Fail" ∨
           (r.completed_status = some "Success" ∧ getVal r site_engy_col = .null) ∨
           r.completed_status = none)) ∧
     (∀ b, b ∈ sample_out.base_failed_ids ↔ b ∈ up_fail_ids_of sample_T0)) :=
  ⟨by decide, by decide,
    C4_failure_classification sample_cfg sample_bs sample_ts sample_out sample_T0
      (by decide) (by decide) sample_load⟩

theorem C5_witness :
    sample_bs ≠ [] ∧ (0, sample_T0) ∈ sample_ts ∧
    (0 : Nat) ∉ sample_cfg.upgrade_ids_to_skip ∧
    (((∃ e, load_data sample_cfg sample_bs sample_ts = .error e) ↔
       ∃ ut ∈ sample_ts, ut.1 ∉ sample_cfg.upgrade_ids_to_skip ∧
         (¬ ut.2.rows.length = sample_bs.length ∨
          ((up_fail_ids_of (stamp_upgrade ut.1 ut.2)).length : ℚ)
            / (ut.2.rows.length : ℚ)
            > sample_cfg.acceptable_failure_percentage)) ∧
     (∀ e, load_data sample_cfg sample_bs sample_ts = .error e →
       (∃ u, e = .excessFailureRate u) ∨ ∃ u, e = .attributeError u) ∧
     ((∀ ut ∈ sample_ts, ut.1 ∉ sample_cfg.upgrade_ids_to_skip →
         ut.2.rows.length = sample_bs.length) →
       ((∃ e, load_data sample_cfg sample_bs sample_ts = .error e) ↔
         ∃ ut ∈ sample_ts, ut.1 ∉ sample_cfg.upgrade_ids_to_skip ∧
           ((up_fail_ids_of (stamp_upgrade ut.1 ut.2)).length : ℚ)
             / (ut.2.rows.length : ℚ)
             > sample_cfg.acceptable_failure_percentage))) :=
  ⟨by decide, by decide, by decide,
    C5_failure_rate_abort sample_cfg sample_bs sample_ts (by decide) sample_T0
      (by decide) (by decide)⟩

/-- An upgrade table with building 2 missing: two rows against a
three-building buildstock, both successful. -/
def sampleShort_T1 : Table :=
  { schema := [site_engy_col, "in.sqft", "job_id"],
    rows := [sample_row 1 (some "Success") "Up1" (Val.num 90) (Val.num 11),
             sample_row 3 (some "Success") "Up1" (Val.num 80) (Val.num 13)] }

def sampleShort_ts : List (Nat × Table) := [(0, sample_T0), (1, sampleShort_T1)]

theorem sampleShort_scan :
    scan_upgrades sample_cfg sample_bs ⟨[], [], []⟩ sampleShort_ts
      = .error (.attributeError 1) := by
  show scan_upgrades sample_cfg sample_bs ⟨[], [], []⟩
    ((0, sample_T0) :: [(1, sampleShort_T1)]) = .error (.attributeError 1)
  rw [scan_upgrades, sample_scan_one_0]
  show scan_upgrades sample_cfg sample_bs sample_st0 ((1, sampleShort_T1) :: [])
    = .error (.attributeError 1)
  have h1 : scan_one sample_cfg sample_bs sample_st0 (1, sampleShort_T1)
      = .error (.attributeError 1) := by
    rw [scan_one, if_neg (by decide), if_neg (by decide)]
  rw [scan_upgrades, h1]

theorem sampleShort_load :
    load_data sample_cfg sample_bs sampleShort_ts = .error (.attributeError 1) :=
  load_data_error_of_scan _ _ _ _ sampleShort_scan

/-- C2 counterexample: building 2 is missing from the upgrade's raw table
(two rows against a three-building buildstock), but it is never added to a
cross-upgrade failed set and no consolidated dataset excluding it exists:
`load_data` aborts with the line-335 AttributeError (`up_res.index` on a
polars DataFrame) before the missing-id update of line 336 runs.  The
claim's "missing from an upgrade's raw table" clause therefore describes
no completed run. -/
theorem C2_counterexample :
    (2 ∈ sample_bs ∧
     2 ∉ sampleShort_T1.rows.map (fun r => r.building_id)) ∧
    load_data sample_cfg sample_bs sampleShort_ts
      = .error (.attributeError 1) ∧
    ∀ out, load_data sample_cfg sample_bs sampleShort_ts ≠ .ok out :=
  ⟨by decide, sampleShort_load, fun out h => by
    rw [sampleShort_load] at h
    exact Except.noConfusion h⟩

/-- C5 counterexample: the upgrade's failure rate is 0, well below the
configured 50% threshold, yet `load_data` aborts — the raw table is
shorter than the buildstock, and the line-335 branch raises its
AttributeError before the rate check of lines 360-368 ever runs.  This
refutes the claim's "a failure rate at or below the threshold never
aborts" direction. -/
theorem C5_counterexample :
    ¬ (((up_fail_ids_of (stamp_upgrade 1 sampleShort_T1)).length : ℚ)
        / (sampleShort_T1.rows.length : ℚ)
        > sample_cfg.acceptable_failure_percentage) ∧
    (∃ e, load_data sample_cfg sample_bs sampleShort_ts = .error e) := by
  constructor
  · have e1 : up_fail_ids_of (stamp_upgrade 1 sampleShort_T1) = [] := by decide
    have e2 : sampleShort_T1.rows.length = 2 := by decide
    rw [e1, e2]
    norm_num [sample_cfg]
  · exact ⟨_, sampleShort_load⟩

/-- C6 counterexample: with a zero baseline value and a nonzero upgrade
value, `percent_savings` evaluates to negative infinity, not 0 — only null
and NaN results are coerced by the `fill_null`/`fill_nan` calls of
comstock.py lines 1513-1514, and `(0 − 1)/0` is `-inf`, neither of the
two. -/
theorem C6_counterexample :
    pct_savings_val (Val.num 0) (Val.num 1) = Val.neginf ∧
    Val.neginf ≠ Val.num 0 := by
  constructor
  · have hsub : subV (Val.num 0) (Val.num 1) = Val.num (-1) := by
      show Val.num (0 - 1) = Val.num (-1)
      norm_num
    rw [pct_savings_val, hsub]
    have hdiv : divV (Val.num (-1)) (Val.num 0) = Val.neginf := by
      show (if (0 : ℚ) = 0 then
          (if (-1 : ℚ) = 0 then Val.nan
           else if (-1 : ℚ) > 0 then Val.inf else Val.neginf)
        else Val.num (-1 / 0)) = Val.neginf
      norm_num
    rw [hdiv]
    rfl
  · intro h
    exact absurd h (by simp)

/-- C6 as amended: `percent_savings = (baseline − upgrade)/baseline`, with
null and NaN division results coerced to exactly 0 (so a zero baseline with
a zero upgrade value gives 0, and a null or NaN operand gives 0); but a
zero baseline with a nonzero upgrade value yields ±infinity (negative for a
positive upgrade value), which is not coerced. -/
theorem C6_percent_savings_semantics (b u : ℚ) :
    pct_savings_val (Val.num b) (Val.num u)
      = (if b = 0 then
           (if u = 0 then Val.num 0 else (if u < 0 then Val.inf else Val.neginf))
         else Val.num ((b - u) / b)) ∧
    pct_savings_val Val.null (Val.num u) = Val.num 0 ∧
    pct_savings_val (Val.num b) Val.null = Val.num 0 ∧
    pct_savings_val Val.nan (Val.num u) = Val.num 0 := by
  refine ⟨?_, rfl, rfl, rfl⟩
  by_cases hb : b = 0
  · rw [if_pos hb]
    by_cases hu : u = 0
    · rw [if_pos hu]
      subst hb
      subst hu
      exact pct_savings_self_num 0
    · rw [if_neg hu]
      subst hb
      rw [pct_savings_val]
      show fillNan0 (fillNull0 (divV (Val.num (0 - u)) (Val.num 0))) = _
      have ha : (0 - u : ℚ) ≠ 0 := by
        intro hz
        exact hu (by linarith)
      show fillNan0 (fillNull0 (if (0 : ℚ) = 0 then
          (if (0 - u : ℚ) = 0 then Val.nan
           else if (0 - u : ℚ) > 0 then Val.inf else Val.neginf)
        else Val.num ((0 - u) / 0))) = _
      rw [if_pos rfl, if_neg ha]
      by_cases hu2 : u < 0
      · have hgt : (0 - u : ℚ) > 0 := by linarith
        rw [if_pos hgt, if_pos hu2]
        rfl
      · have hngt : ¬ ((0 - u : ℚ) > 0) := by
          push_neg
          push_neg at hu2
          linarith
        rw [if_neg hngt, if_neg hu2]
        rfl
  · rw [if_neg hb, pct_savings_val]
    show fillNan0 (fillNull0 (if (b : ℚ) = 0 then
        (if (b - u : ℚ) = 0 then Val.nan
         else if (b - u : ℚ) > 0 then Val.inf else Val.neginf)
      else Val.num ((b - u) / b))) = _
    rw [if_neg hb]
    rfl

theorem segment_for_exhaustive (btype heat cat : Val) :
    segment_for btype heat cat = "ERROR" ∨
    segment_for btype heat cat ∈ segment_labels := by
  rw [segment_for]
  split_ifs <;> first
    | exact Or.inr (List.get_mem _ _ _)
    | exact Or.inl rfl

theorem row_segment_set (r : Row) :
    row_segment (setVal r "in.hvac_category" (hvac_category_val r))
      = segment_for (getVal r "in.comstock_building_type")
          (getVal r "in.hvac_heat_type") (hvac_category_val r) := by
  rw [row_segment, getVal_setVal_other _ _ _ _ (by decide),
    getVal_setVal_other _ _ _ _ (by decide), getVal_setVal_same]

theorem add_segments_num_errs_zero (data : List Row) :
    ((segs_data2 data).filter
      (fun r => decide (getVal r SEG_NAME = Val.str "ERROR"))).length = 0
    ↔ ∀ r ∈ data, segment_for (getVal r "in.comstock_building_type")
        (getVal r "in.hvac_heat_type") (hvac_category_val r) ≠ "ERROR" := by
  rw [segs_data2, List.length_eq_zero, List.filter_eq_nil_iff, List.map_map]
  constructor
  · intro h r hr
    intro he
    refine h _ (List.mem_map_of_mem _ hr) ?_
    show decide (getVal (setVal (setVal r "in.hvac_category" (hvac_category_val r))
      SEG_NAME (Val.str (row_segment (setVal r "in.hvac_category"
        (hvac_category_val r))))) SEG_NAME = Val.str "ERROR") = true
    rw [getVal_setVal_same, row_segment_set, he]
    exact decide_eq_true rfl
  · intro h r2 hr2 hd
    obtain ⟨r, hr, rfl⟩ := List.mem_map.mp hr2
    have hd' : getVal (setVal (setVal r "in.hvac_category" (hvac_category_val r))
        SEG_NAME (Val.str (row_segment (setVal r "in.hvac_category"
          (hvac_category_val r))))) SEG_NAME = Val.str "ERROR" := of_decide_eq_true hd
    rw [getVal_setVal_same, row_segment_set] at hd'
    exact h r hr (by injection hd')

/-- C7: the segment classifier assigns every record a label by the ordered
first-match-wins decision list; it raises its fatal error exactly when some
record matches no rule (the catch-all `'ERROR'`), so a successful run
returns the data with every row carrying exactly one of the nine segment
labels and no row carrying the error label.  The nine labels are pairwise
distinct and distinct from `'ERROR'`. -/
theorem C7_segment_classification (data : List Row) :
    ((∃ out, add_addressable_segments_columns data = .ok out) ↔
      ∀ r ∈ data, segment_for (getVal r "in.comstock_building_type")
        (getVal r "in.hvac_heat_type") (hvac_category_val r) ≠ "ERROR") ∧
    (∀ out, add_addressable_segments_columns data = .ok out →
      ∀ r' ∈ out, getVal r' SEG_NAME ∈ segment_labels.map Val.str ∧
        getVal r' SEG_NAME ≠ Val.str "ERROR") ∧
    (∀ btype heat cat : Val, segment_for btype heat cat = "ERROR" ∨
      segment_for btype heat cat ∈ segment_labels) ∧
    segment_labels.length = 9 ∧ segment_labels.Nodup ∧ "ERROR" ∉ segment_labels := by
  have hsplit := add_segments_num_errs_zero data
  refine ⟨?_, ?_, segment_for_exhaustive, by decide, by decide, by decide⟩
  · constructor
    · rintro ⟨out, hout⟩
      rw [add_addressable_segments_columns] at hout
      split at hout
      · exact absurd hout (by simp)
      · next hpos =>
          exact hsplit.mp (Nat.le_zero.mp (Nat.not_lt.mp hpos))
    · intro hall
      have hz := hsplit.mpr hall
      refine ⟨segs_data2 data, ?_⟩
      rw [add_addressable_segments_columns, if_neg (by rw [hz]; exact lt_irrefl 0)]
  · intro out hout r' hr'
    rw [add_addressable_segments_columns] at hout
    split at hout
    · exact absurd hout (by simp)
    · next hpos =>
        rw [Except.ok.injEq] at hout
        subst hout
        rw [segs_data2] at hr'
        obtain ⟨r1, hr1, rfl⟩ := List.mem_map.mp hr'
        obtain ⟨r, hr, rfl⟩ := List.mem_map.mp hr1
        have hval : getVal (setVal (setVal r "in.hvac_category" (hvac_category_val r))
            SEG_NAME (Val.str (row_segment (setVal r "in.hvac_category"
              (hvac_category_val r))))) SEG_NAME
            = Val.str (segment_for (getVal r "in.comstock_building_type")
                (getVal r "in.hvac_heat_type") (hvac_category_val r)) := by
          rw [getVal_setVal_same, row_segment_set]
        have hner := hsplit.mp (Nat.le_zero.mp (Nat.not_lt.mp hpos)) r hr
        constructor
        · rw [hval]
          rcases segment_for_exhaustive (getVal r "in.comstock_building_type")
            (getVal r "in.hvac_heat_type") (hvac_category_val r) with he | hm
          · exact absurd he hner
          · exact List.mem_map_of_mem Val.str hm
        · rw [hval]
          intro he
          exact hner (by injection he)

/-- A consolidated row for exercising the segment classifier: a small
office with a furnace-heated single-zone RTU, which rule 1 (Segment A)
matches. -/
def sample_seg_row : Row :=
  { building_id := 1, completed_status := some "Success", upgrade := 0,
    upgrade_name := BASE_NAME,
    vals := [("in.comstock_building_type", Val.str "SmallOffice"),
             ("in.hvac_heat_type", Val.str "Furnace"),
             ("in.hvac_combined_type",
               Val.str "Central Single-zone RTU_ASHP_ASHP")] }

theorem C7_witness :
    ∃ out, add_addressable_segments_columns [sample_seg_row] = .ok out :=
  (C7_segment_classification [sample_seg_row]).1.mpr (by decide)

/-! ## C8: scaling-weight helper lemmas -/

theorem flookup_filter_map (f : Option String → Val)
    (l : List (Option String)) (t : String) :
    flookup ((l.map (fun k => (k, f k))).filter
        (fun p => decide (p.1 ≠ none))) (some t)
      = if some t ∈ l then some (f (some t)) else none := by
  induction l with
  | nil => rfl
  | cons k rest ih =>
      rw [List.map_cons]
      by_cases hk : k = none
      · subst hk
        rw [List.filter_cons_of_neg (by simp), ih]
        by_cases ht : some t ∈ rest
        · rw [if_pos ht, if_pos (List.mem_cons_of_mem _ ht)]
        · rw [if_neg ht, if_neg ?_]
          intro h
          rcases List.mem_cons.mp h with h1 | h2
          · exact Option.noConfusion h1
          · exact ht h2
      · rw [List.filter_cons_of_pos (by simpa using hk)]
        simp only [flookup]
        by_cases hkt : k = some t
        · subst hkt
          rw [if_pos rfl, if_pos (List.mem_cons_self _ _)]
        · rw [if_neg hkt, ih]
          by_cases ht : some t ∈ rest
          · rw [if_pos ht, if_pos (List.mem_cons_of_mem _ ht)]
          · rw [if_neg ht, if_neg ?_]
            intro h
            rcases List.mem_cons.mp h with h1 | h2
            · exact hkt h1.symm
            · exact ht h2

theorem flookup_sf_final (cbecs : List CbecsRow) (data : List Row) (t : String) :
    flookup (scale_factors_final cbecs data) (some t)
      = if some t ∈ sf_index cbecs data
        then some (scale_factor_at cbecs data (some t)) else none := by
  rw [scale_factors_final, bldg_type_scale_factors]
  exact flookup_filter_map (scale_factor_at cbecs data) _ t

theorem scale_factor_at_of_both (cbecs : List CbecsRow) (data : List Row)
    (t : String) (ht1 : t ∈ cbecs_keys cbecs data)
    (ht2 : some t ∈ comstock_keys data) :
    scale_factor_at cbecs data (some t)
      = divV (Val.num (cbecs_type_sqft cbecs data t))
          (Val.num (comstock_type_sqft data (some t))) := by
  simp only [scale_factor_at]
  rw [if_pos ht1, if_pos ht2]

theorem comstock_type_sqft_non_baseline (data : List Row) (t : Option String)
    (r : Row) (h : r.upgrade_name ≠ BASE_NAME) :
    comstock_type_sqft (r :: data) t = comstock_type_sqft data t := by
  rw [comstock_type_sqft, comstock_type_sqft, baseline_rows, baseline_rows,
    List.filter_cons_of_neg (by simpa using h)]

/-- C8: for a building type present in both the (filtered) CBECS reference
table and the simulated data, the scaling weight is the CBECS total
weighted floor area of that type divided by the total floor area of the
baseline partition only; prepending a non-baseline row never changes the
denominator; the broadcast preserves row identity and the unweighted
floor-area column, sets the weight column to that type's factor, and sets
the weighted floor-area column to the unweighted area times the factor. -/
theorem C8_scaling_weights (cbecs : List CbecsRow) (data : List Row) (t : String)
    (ht1 : t ∈ cbecs_keys cbecs data) (ht2 : some t ∈ comstock_keys data) :
    flookup (scale_factors_final cbecs data) (some t)
      = some (scale_factor_at cbecs data (some t)) ∧
    scale_factor_at cbecs data (some t)
      = divV (Val.num (cbecs_type_sqft cbecs data t))
          (Val.num (comstock_type_sqft data (some t))) ∧
    (comstock_type_sqft data (some t) ≠ 0 →
      scale_factor_at cbecs data (some t)
        = Val.num (cbecs_type_sqft cbecs data t
            / comstock_type_sqft data (some t))) ∧
    (∀ r : Row, r.upgrade_name ≠ BASE_NAME →
      comstock_type_sqft (r :: data) (some t)
        = comstock_type_sqft data (some t)) ∧
    (add_national_scaling_weights cbecs data).length = data.length ∧
    (∀ r ∈ data, row_bldg_type r = some t →
      ∃ r' ∈ add_national_scaling_weights cbecs data,
        r'.building_id = r.building_id ∧ r'.upgrade = r.upgrade ∧
        getVal r' FLR_AREA = getVal r FLR_AREA ∧
        getVal r' BLDG_WEIGHT = scale_factor_at cbecs data (some t) ∧
        getVal r' (col_name_to_weighted FLR_AREA)
          = mulV (getVal r FLR_AREA) (scale_factor_at cbecs data (some t))) := by
  have hmemidx : some t ∈ sf_index cbecs data := by
    rw [sf_index, List.mem_dedup]
    exact List.mem_append_left _ (List.mem_map_of_mem some ht1)
  refine ⟨?_, scale_factor_at_of_both cbecs data t ht1 ht2, ?_, ?_, ?_, ?_⟩
  · rw [flookup_sf_final, if_pos hmemidx]
  · intro hden
    rw [scale_factor_at_of_both cbecs data t ht1 ht2]
    simp only [divV]
    rw [if_neg hden]
  · exact fun r h => comstock_type_sqft_non_baseline data (some t) r h
  · rw [add_national_scaling_weights]
    simp only [add_weighted_area_column, add_weight_column, List.length_map]
  · intro r hr hbt
    have hf : (flookup (scale_factors_final cbecs data) (row_bldg_type r)).getD
          Val.null
        = scale_factor_at cbecs data (some t) := by
      rw [hbt, flookup_sf_final, if_pos hmemidx]
      rfl
    refine ⟨setVal (setVal r BLDG_WEIGHT
        ((flookup (scale_factors_final cbecs data) (row_bldg_type r)).getD
          Val.null))
        (col_name_to_weighted FLR_AREA)
        (mulV (getVal (setVal r BLDG_WEIGHT
            ((flookup (scale_factors_final cbecs data) (row_bldg_type r)).getD
              Val.null)) FLR_AREA)
          (getVal (setVal r BLDG_WEIGHT
            ((flookup (scale_factors_final cbecs data) (row_bldg_type r)).getD
              Val.null)) BLDG_WEIGHT)), ?_, rfl, rfl, ?_, ?_, ?_⟩
    · rw [add_national_scaling_weights]
      simp only [add_weighted_area_column, add_weight_column]
      rw [List.mem_map]
      exact ⟨_, List.mem_map_of_mem _ hr, rfl⟩
    · rw [getVal_setVal_other _ _ _ _ (by decide),
        getVal_setVal_other _ _ _ _ (by decide)]
    · rw [getVal_setVal_other _ _ _ _ (by decide), getVal_setVal_same, hf]
    · rw [getVal_setVal_same, getVal_setVal_same,
        getVal_setVal_other _ _ _ _ (by decide), hf]

/-! ## C9: what the NaN guard of lines 1343-1347 actually removes -/

/-- A reference table with two named building types. -/
def exC9_cbecs : List CbecsRow :=
  [{ bldg_type := some "Office", wtd_area := 1000 },
   { bldg_type := some "Retail", wtd_area := 500 }]

/-- A baseline row of type Retail: only Retail has a simulated baseline
denominator. -/
def exC9_base_row : Row :=
  { building_id := 1, completed_status := some "Success", upgrade := 0,
    upgrade_name := BASE_NAME,
    vals := [(BLDG_TYPE, Val.str "Retail"), (FLR_AREA, Val.num 250)] }

/-- An upgrade row of type Office: Office occurs in the data (so it
survives the CBECS restriction) but not in the baseline partition, so its
denominator is missing. -/
def exC9_up_row : Row :=
  { building_id := 1, completed_status := some "Success", upgrade := 1,
    upgrade_name := "Up1",
    vals := [(BLDG_TYPE, Val.str "Office"), (FLR_AREA, Val.num 250)] }

def exC9_data : List Row := [exC9_base_row, exC9_up_row]

/-- C9 counterexample: Office is present in the reference after filtering
but has no simulated baseline denominator, so its weight is undefined —
yet its entry is NOT removed from the scale-factor dictionary: the guard
`if np.nan in bldg_type_scale_factors` tests the KEYS, and the Office
entry's key is a real building type, so the dictionary retains the entry
with value NaN. -/
theorem C9_counterexample :
    "Office" ∈ cbecs_keys exC9_cbecs exC9_data ∧
    some "Office" ∉ comstock_keys exC9_data ∧
    some "Office" ∈ (scale_factors_final exC9_cbecs exC9_data).map Prod.fst ∧
    flookup (scale_factors_final exC9_cbecs exC9_data) (some "Office")
      = some Val.nan :=
  ⟨by decide, by decide, by decide, rfl⟩

/-- C9 (amended): the guard of comstock.py lines 1343-1347 deletes exactly
the entry whose KEY is the null building type (a NaN groupby key); entries
for named building types are retained even when their VALUE is undefined —
NaN for a missing simulated denominator, +inf for a zero denominator with
a positive numerator — and the computation is total (never fatal). -/
theorem C9_nan_key_removal (cbecs : List CbecsRow) (data : List Row) :
    (∀ p ∈ bldg_type_scale_factors cbecs data,
      (p ∈ scale_factors_final cbecs data ↔ p.1 ≠ none)) ∧
    (∀ t : String, t ∈ cbecs_keys cbecs data → some t ∉ comstock_keys data →
      flookup (scale_factors_final cbecs data) (some t) = some Val.nan) ∧
    (∀ t : String, t ∈ cbecs_keys cbecs data → some t ∈ comstock_keys data →
      comstock_type_sqft data (some t) = 0 →
      0 < cbecs_type_sqft cbecs data t →
      flookup (scale_factors_final cbecs data) (some t) = some Val.inf) := by
  refine ⟨?_, ?_, ?_⟩
  · intro p hp
    constructor
    · intro hf
      rw [scale_factors_final] at hf
      exact of_decide_eq_true (List.mem_filter.mp hf).2
    · intro hne
      rw [scale_factors_final]
      exact List.mem_filter.mpr ⟨hp, decide_eq_true hne⟩
  · intro t h1 h2
    have hmem : some t ∈ sf_index cbecs data := by
      rw [sf_index, List.mem_dedup]
      exact List.mem_append_left _ (List.mem_map_of_mem some h1)
    rw [flookup_sf_final, if_pos hmem]
    simp only [scale_factor_at]
    rw [if_pos h1, if_neg h2]
    rfl
  · intro t h1 h2 hz hpos
    have hmem : some t ∈ sf_index cbecs data := by
      rw [sf_index, List.mem_dedup]
      exact List.mem_append_left _ (List.mem_map_of_mem some h1)
    rw [flookup_sf_final, if_pos hmem,
      scale_factor_at_of_both cbecs data t h1 h2, hz]
    simp only [divV]
    rw [if_pos trivial, if_neg (ne_of_gt hpos), if_pos hpos]

/-! ## C10: the missing-energy-column fold -/

theorem amec_cons (c0 : String) (rest : List String) (d : ConsData) :
    add_missing_energy_columns (c0 :: rest) d
      = add_missing_energy_columns rest
          (if c0 ∈ d.schema then d
           else { schema := d.schema ++ [c0],
                  rows := d.rows.map (fun r => setVal r c0 (Val.num 0)) }) := rfl

theorem amec_facts (tracked : List String) : ∀ d : ConsData,
    d.schema ⊆ (add_missing_energy_columns tracked d).schema ∧
    (∀ c ∈ tracked, c ∈ (add_missing_energy_columns tracked d).schema) ∧
    List.Forall₂ (fun r r' =>
      (∀ c ∈ d.schema, getVal r' c = getVal r c) ∧
      (∀ c ∈ tracked, c ∉ d.schema → getVal r' c = Val.num 0) ∧
      r'.building_id = r.building_id ∧ r'.upgrade = r.upgrade)
      d.rows (add_missing_energy_columns tracked d).rows := by
  induction tracked with
  | nil =>
      intro d
      refine ⟨fun c hc => hc, fun c hc => absurd hc (List.not_mem_nil c), ?_⟩
      have he : add_missing_energy_columns [] d = d := rfl
      rw [he, List.forall₂_same]
      intro r hr
      exact ⟨fun c hc => rfl, fun c hc => absurd hc (List.not_mem_nil c), rfl, rfl⟩
  | cons c0 rest ih =>
      intro d
      by_cases h0 : c0 ∈ d.schema
      · rw [amec_cons, if_pos h0]
        obtain ⟨h1, h2, h3⟩ := ih d
        refine ⟨h1, ?_, ?_⟩
        · intro c hc
          rcases List.mem_cons.mp hc with rfl | hc'
          · exact h1 h0
          · exact h2 c hc'
        · refine h3.imp ?_
          rintro r r' ⟨p1, p2, p3, p4⟩
          refine ⟨p1, ?_, p3, p4⟩
          intro c hc hcs
          rcases List.mem_cons.mp hc with rfl | hc'
          · exact absurd h0 hcs
          · exact p2 c hc' hcs
      · rw [amec_cons, if_neg h0]
        obtain ⟨h1, h2, h3⟩ := ih
          { schema := d.schema ++ [c0],
            rows := d.rows.map (fun r => setVal r c0 (Val.num 0)) }
        refine ⟨?_, ?_, ?_⟩
        · intro c hc
          exact h1 (List.mem_append_left _ hc)
        · intro c hc
          rcases List.mem_cons.mp hc with rfl | hc'
          · exact h1 (List.mem_append_right _ (List.mem_singleton_self c))
          · exact h2 c hc'
        · have h3' := List.forall₂_map_left_iff.mp h3
          refine h3'.imp ?_
          rintro r r' ⟨p1, p2, p3, p4⟩
          refine ⟨?_, ?_, p3, p4⟩
          · intro c hc
            have hp := p1 c (List.mem_append_left _ hc)
            rw [hp, getVal_setVal_other _ _ _ _ ?_]
            intro hcc
            exact h0 (hcc ▸ hc)
          · intro c hc hcs
            by_cases hcc : c = c0
            · subst hcc
              have hp := p1 c (List.mem_append_right _ (List.mem_singleton_self c))
              rw [hp, getVal_setVal_same]
            · have hcns : c ∉ d.schema ++ [c0] := by
                intro hmem2
                rcases List.mem_append.mp hmem2 with hA | hB
                · exact hcs hA
                · exact hcc (List.mem_singleton.mp hB)
              rcases List.mem_cons.mp hc with rfl | hc'
              · exact absurd rfl hcc
              · exact p2 c hc' hcns

/-- C10: after the missing-energy-column step every tracked energy column
exists in the dataset: tracked columns absent from the loaded data are
added with the constant value `0.0` on every row, tracked columns already
present keep their values, all original columns and values are preserved
row by row, and the row count and row identities are unchanged. -/
theorem C10_missing_energy_columns (tracked : List String) (d : ConsData) :
    (∀ c ∈ tracked, c ∈ (add_missing_energy_columns tracked d).schema) ∧
    (∀ c ∈ d.schema, c ∈ (add_missing_energy_columns tracked d).schema) ∧
    (add_missing_energy_columns tracked d).rows.length = d.rows.length ∧
    List.Forall₂ (fun r r' =>
      (∀ c ∈ d.schema, getVal r' c = getVal r c) ∧
      (∀ c ∈ tracked, c ∉ d.schema → getVal r' c = Val.num 0) ∧
      r'.building_id = r.building_id ∧ r'.upgrade = r.upgrade)
      d.rows (add_missing_energy_columns tracked d).rows := by
  obtain ⟨h1, h2, h3⟩ := amec_facts tracked d
  exact ⟨h2, fun c hc => h1 hc, h3.length_eq.symm, h3⟩

/-- The spec's Office scenario reference table: total weighted area
1,000,000 sqft. -/
def sample_c8_cbecs : List CbecsRow :=
  [{ bldg_type := some "Office", wtd_area := 1000000 }]

/-- A baseline Office row with total simulated area 500,000 sqft. -/
def sample_c8_row : Row :=
  { building_id := 1, completed_status := some "Success", upgrade := 0,
    upgrade_name := BASE_NAME,
    vals := [(BLDG_TYPE, Val.str "Office"), (FLR_AREA, Val.num 500000)] }

def sample_c8_data : List Row := [sample_c8_row]

theorem C8_witness :
    "Office" ∈ cbecs_keys sample_c8_cbecs sample_c8_data ∧
    some "Office" ∈ comstock_keys sample_c8_data ∧
    flookup (scale_factors_final sample_c8_cbecs sample_c8_data) (some "Office")
      = some (scale_factor_at sample_c8_cbecs sample_c8_data (some "Office")) :=
  ⟨by decide, by decide,
   (C8_scaling_weights sample_c8_cbecs sample_c8_data "Office"
     (by decide) (by decide)).1⟩
